import Mathlib

/-!
Verification development for the unified multi-department calendar script
(Google Apps Script, `Code.gs`).  The definitions below are a shallow
embedding of the script's data model and of the functions the checked
properties are about: the event normalizer (`processRow`), the filter
engine (`parseAcademicYear`, `getFilteredEvents`), the grid builder
(`generateMonthGrid`, `formatDayCell`'s holiday lookups and
`applyFormatting`'s background-color selection), the error sheet
(`clearErrorsByType`) and the Google-Calendar reconciliation engine
(`computeEventHash`, `syncToGoogleCalendar`, `writeSyncTracking`).

Modelling conventions:
* A JavaScript `Date` is modelled as a normalized component tuple
  (`JSDate`); JS orders `Date`s by epoch timestamp, which on normalized
  tuples coincides with lexicographic component order (`JSDate.jsLt`).
* `Date.prototype.toISOString` is modelled as an injective decimal
  rendering of the components separated by the usual ISO punctuation
  (`JSDate.toISO`); zero padding and the UTC conversion are immaterial
  to every property proved here, injectivity of the rendering is what
  matters and is proved (`JSDate.toISO_injective`).
* `Utilities.computeDigest(MD5, input)` plus the hex conversion is a
  deterministic function of `input`; it is modelled as the identity on
  the input string, i.e. the MD5 step is abstracted as injective
  (collision-free).  Hash equality in the model is therefore equality
  of the exact concatenated input string the source builds.
* External calls (`CalendarApp` create/delete) are modelled by outcome
  oracles passed as arguments: `create e = some id` means the create
  call returned an event with id `id`, `none` means it threw;
  `storeDeleteOk id` tells whether the store-level delete inside
  `deleteCalendarEvent` succeeded (that outcome is swallowed by the
  source's internal `try/catch`, which the model reflects).
-/

/-- Model of a JavaScript `Date` value: a normalized calendar timestamp.
`month` is 0-indexed as in JS.  JS compares `Date`s by epoch milliseconds;
on normalized tuples that order is the lexicographic order on
(year, month, day, hour, minute, second), which is what `jsLt`/`jsLe`
implement. -/
structure JSDate where
  year : Nat
  month : Nat
  day : Nat
  hour : Nat
  minute : Nat
  second : Nat
deriving DecidableEq, Repr

/-- Injective numeric code realising the lexicographic order on normalized
dates (fields within calendar bounds). -/
def JSDate.code (d : JSDate) : Nat :=
  ((((d.year * 13 + d.month) * 32 + d.day) * 24 + d.hour) * 60 + d.minute) * 60 + d.second

/-- The `a < b` comparison for JS `Date`s (epoch-timestamp order, lexicographic on
normalized tuples). -/
def JSDate.jsLt (a b : JSDate) : Bool := a.code < b.code

/-- The `a <= b` comparison for JS `Date`s. -/
def JSDate.jsLe (a b : JSDate) : Bool := a.code ≤ b.code

/-- Little-endian-to-big-endian decimal rendering with explicit fuel
(structural recursion; `fuel ≥ n` renders all digits of `n`, `n = 0`
renders the empty list, matching `Nat` digit lists). -/
def encNatFuel : Nat → Nat → List Char
  | 0, _ => []
  | fuel + 1, n => if n = 0 then [] else encNatFuel fuel (n / 10) ++ [Nat.digitChar (n % 10)]

/-- Decimal digit list of `n` (empty for 0), as characters. -/
def encNat (n : Nat) : List Char := encNatFuel n n

/-- Decimal decoding, a left inverse of `encNat`. -/
def decNat (cs : List Char) : Nat :=
  Nat.ofDigits 10 ((cs.map (fun c => c.toNat - 48)).reverse)

theorem decNat_encNatFuel (fuel : Nat) : ∀ n : Nat, n ≤ fuel → decNat (encNatFuel fuel n) = n := by
  induction fuel with
  | zero => intro n hn; interval_cases n; simp [encNatFuel, decNat, Nat.ofDigits]
  | succ fuel ih =>
    intro n hn
    by_cases h0 : n = 0
    · simp [encNatFuel, h0, decNat, Nat.ofDigits]
    · have hdiv : n / 10 < n := Nat.div_lt_self (Nat.pos_of_ne_zero h0) (by norm_num)
      have hdivle : n / 10 ≤ fuel := by omega
      have hdigit : (Nat.digitChar (n % 10)).toNat - 48 = n % 10 := by
        have key : ∀ d : Nat, d < 10 → (Nat.digitChar d).toNat - 48 = d := by decide
        exact key _ (Nat.mod_lt _ (by norm_num))
      have := ih (n / 10) hdivle
      simp only [encNatFuel, h0, if_false, decNat] at *
      rw [List.map_append, List.reverse_append]
      simp only [List.map_cons, List.map_nil, List.reverse_cons, List.reverse_nil,
        List.nil_append, List.singleton_append, Nat.ofDigits_cons]
      rw [hdigit, this]
      exact Nat.mod_add_div n 10

theorem decNat_encNat (n : Nat) : decNat (encNat n) = n :=
  decNat_encNatFuel n n (le_refl n)

theorem encNat_injective : Function.Injective encNat := by
  intro a b h
  have : decNat (encNat a) = decNat (encNat b) := by rw [h]
  rwa [decNat_encNat, decNat_encNat] at this

/-- ASCII decimal digit character test. -/
def isDigitCh (c : Char) : Bool := 48 ≤ c.toNat && c.toNat ≤ 57

theorem encNatFuel_digits (fuel : Nat) :
    ∀ n : Nat, ∀ c ∈ encNatFuel fuel n, isDigitCh c = true := by
  induction fuel with
  | zero => intro n c hc; simp [encNatFuel] at hc
  | succ fuel ih =>
    intro n c hc
    by_cases h0 : n = 0
    · simp [encNatFuel, h0] at hc
    · simp only [encNatFuel, h0, if_false, List.mem_append, List.mem_singleton] at hc
      rcases hc with hc | hc
      · exact ih _ c hc
      · have key : ∀ d : Nat, d < 10 → isDigitCh (Nat.digitChar d) = true := by decide
        subst hc
        exact key _ (Nat.mod_lt _ (by norm_num))

theorem encNat_digits (n : Nat) : ∀ c ∈ encNat n, isDigitCh c = true :=
  encNatFuel_digits n n

/-- Splitting a concatenation at a non-digit separator: if both prefixes are
all-digit and the separator is not a digit, the prefixes and the remainders
agree. -/
theorem sep_split {sep : Char} (hsep : isDigitCh sep = false) :
    ∀ (xs ys : List Char) (r s : List Char),
      (∀ c ∈ xs, isDigitCh c = true) → (∀ c ∈ ys, isDigitCh c = true) →
      xs ++ sep :: r = ys ++ sep :: s → xs = ys ∧ r = s := by
  intro xs
  induction xs with
  | nil =>
    intro ys r s _ hys h
    cases ys with
    | nil => simpa using h
    | cons y ys' =>
      simp only [List.nil_append, List.cons_append, List.cons.injEq] at h
      exfalso
      have := hys y (by simp)
      rw [← h.1] at this
      rw [hsep] at this
      exact Bool.false_ne_true this
  | cons x xs' ih =>
    intro ys r s hxs hys h
    cases ys with
    | nil =>
      simp only [List.cons_append, List.nil_append, List.cons.injEq] at h
      exfalso
      have := hxs x (by simp)
      rw [h.1, hsep] at this
      exact Bool.false_ne_true this
    | cons y ys' =>
      simp only [List.cons_append, List.cons.injEq] at h
      obtain ⟨rfl, h2⟩ := h
      have := ih ys' r s (fun c hc => hxs c (by simp [hc])) (fun c hc => hys c (by simp [hc])) h2
      exact ⟨by rw [this.1], this.2⟩

theorem dash_not_digit : isDigitCh '-' = false := by decide
theorem colon_not_digit : isDigitCh ':' = false := by decide
theorem tch_not_digit : isDigitCh 'T' = false := by decide
theorem zch_not_digit : isDigitCh 'Z' = false := by decide

/-- Model of `Date.prototype.toISOString` (used by `computeEventHash`,
source lines 1762-1764): a decimal rendering of the date-time components
with ISO punctuation.  Padding and UTC normalization are dropped; the
rendering is injective (`toISO_injective`), which is the only property of
the real `toISOString` the source relies on. -/
def JSDate.toISO (d : JSDate) : List Char :=
  encNat d.year ++ '-' :: encNat d.month ++ '-' :: encNat d.day ++
    'T' :: encNat d.hour ++ ':' :: encNat d.minute ++ ':' :: encNat d.second ++ ['Z']

theorem JSDate.toISO_injective : Function.Injective JSDate.toISO := by
  intro a b h
  unfold JSDate.toISO at h
  simp only [List.append_assoc, List.cons_append] at h
  obtain ⟨h1, h⟩ := sep_split dash_not_digit _ _ _ _ (encNat_digits _) (encNat_digits _) h
  obtain ⟨h2, h⟩ := sep_split dash_not_digit _ _ _ _ (encNat_digits _) (encNat_digits _) h
  obtain ⟨h3, h⟩ := sep_split tch_not_digit _ _ _ _ (encNat_digits _) (encNat_digits _) h
  obtain ⟨h4, h⟩ := sep_split colon_not_digit _ _ _ _ (encNat_digits _) (encNat_digits _) h
  obtain ⟨h5, h⟩ := sep_split colon_not_digit _ _ _ _ (encNat_digits _) (encNat_digits _) h
  obtain ⟨h6, -⟩ := sep_split zch_not_digit _ _ _ _ (encNat_digits _) (encNat_digits _) h
  cases a; cases b
  simp only [JSDate.mk.injEq]
  exact ⟨encNat_injective h1, encNat_injective h2, encNat_injective h3,
    encNat_injective h4, encNat_injective h5, encNat_injective h6⟩

theorem JSDate.toISO_ne_nil (d : JSDate) : d.toISO ≠ [] := by
  unfold JSDate.toISO
  cases h : encNat d.year <;> simp [h]

/-- The normalized event record produced by `getAllEvents` (source lines
812-828). -/
structure Event where
  department : String
  /-- Legacy mirror of `startDate` (`date: startParsed.date`). -/
  date : JSDate
  startDate : JSDate
  endDate : Option JSDate
  hasTime : Bool
  service : String
  event : String
  sheetId : Nat
  rowIndex : Nat
  surSiteCCFHK : Bool
  surCalendrierExcel : Bool
  surCalendrierExcelRaw : String
deriving DecidableEq, Repr

/-- Model of `computeEventHash` (source lines 1761-1774).  The MD5 digest plus hex
conversion is abstracted as the identity on the concatenated input string
(see the header comment), so the value here is the exact input
`department | startISO | endISO-or-empty | service | event | surSiteFlag`
built by the source, as a character list. -/
def computeEventHash (e : Event) : List Char :=
  let startStr := e.startDate.toISO
  let endStr := match e.endDate with
    | some d => d.toISO
    | none => []
  let surSiteStr : List Char := if e.surSiteCCFHK then ['1'] else ['0']
  e.department.data ++ '|' :: startStr ++ '|' :: endStr ++ '|' :: e.service.data ++
    '|' :: e.event.data ++ '|' :: surSiteStr

theorem stringData_inj {s t : String} (h : s.data = t.data) : s = t := by
  cases s; cases t; simp_all

/-- Strips the identical prefix `P` and suffix `Q` around a differing middle
segment of a concatenation equation. -/
theorem mid_cancel {P Q x y : List Char} (h : P ++ (x ++ Q) = P ++ (y ++ Q)) : x = y :=
  List.append_cancel_right (List.append_cancel_left h)

theorem hash_dept_cancel (e : Event) (d' : String)
    (h : computeEventHash { e with department := d' } = computeEventHash e) :
    d' = e.department := by
  simp only [computeEventHash, List.append_assoc, List.cons_append] at h
  exact stringData_inj (List.append_cancel_right h)

theorem hash_start_cancel (e : Event) (s' : JSDate)
    (h : computeEventHash { e with startDate := s' } = computeEventHash e) :
    s' = e.startDate := by
  simp only [computeEventHash, List.append_assoc, List.cons_append] at h
  replace h := List.append_cancel_left h
  simp only [List.cons.injEq, eq_self_iff_true, true_and] at h
  exact JSDate.toISO_injective (List.append_cancel_right h)

theorem hash_end_cancel (e : Event) (en' : Option JSDate)
    (h : computeEventHash { e with endDate := en' } = computeEventHash e) :
    en' = e.endDate := by
  simp only [computeEventHash, List.append_assoc, List.cons_append] at h
  replace h := List.append_cancel_left h
  simp only [List.cons.injEq, eq_self_iff_true, true_and] at h
  replace h := List.append_cancel_left h
  simp only [List.cons.injEq, eq_self_iff_true, true_and] at h
  replace h := List.append_cancel_right h
  cases en' with
  | none =>
    cases he : e.endDate with
    | none => rfl
    | some d =>
      rw [he] at h
      exact absurd h.symm (JSDate.toISO_ne_nil d)
  | some d' =>
    cases he : e.endDate with
    | none =>
      rw [he] at h
      exact absurd h (JSDate.toISO_ne_nil d')
    | some d =>
      rw [he] at h
      rw [JSDate.toISO_injective h]

theorem hash_service_cancel (e : Event) (sv' : String)
    (h : computeEventHash { e with service := sv' } = computeEventHash e) :
    sv' = e.service := by
  simp only [computeEventHash, List.append_assoc, List.cons_append] at h
  replace h := List.append_cancel_left h
  simp only [List.cons.injEq, eq_self_iff_true, true_and] at h
  replace h := List.append_cancel_left h
  simp only [List.cons.injEq, eq_self_iff_true, true_and] at h
  replace h := List.append_cancel_left h
  simp only [List.cons.injEq, eq_self_iff_true, true_and] at h
  exact stringData_inj (List.append_cancel_right h)

theorem hash_title_cancel (e : Event) (ti' : String)
    (h : computeEventHash { e with event := ti' } = computeEventHash e) :
    ti' = e.event := by
  simp only [computeEventHash, List.append_assoc, List.cons_append] at h
  replace h := List.append_cancel_left h
  simp only [List.cons.injEq, eq_self_iff_true, true_and] at h
  replace h := List.append_cancel_left h
  simp only [List.cons.injEq, eq_self_iff_true, true_and] at h
  replace h := List.append_cancel_left h
  simp only [List.cons.injEq, eq_self_iff_true, true_and] at h
  replace h := List.append_cancel_left h
  simp only [List.cons.injEq, eq_self_iff_true, true_and] at h
  exact stringData_inj (List.append_cancel_right h)

theorem hash_surSite_cancel (e : Event) (os' : Bool)
    (h : computeEventHash { e with surSiteCCFHK := os' } = computeEventHash e) :
    os' = e.surSiteCCFHK := by
  simp only [computeEventHash, List.append_assoc, List.cons_append] at h
  replace h := List.append_cancel_left h
  simp only [List.cons.injEq, eq_self_iff_true, true_and] at h
  replace h := List.append_cancel_left h
  simp only [List.cons.injEq, eq_self_iff_true, true_and] at h
  replace h := List.append_cancel_left h
  simp only [List.cons.injEq, eq_self_iff_true, true_and] at h
  replace h := List.append_cancel_left h
  simp only [List.cons.injEq, eq_self_iff_true, true_and] at h
  replace h := List.append_cancel_left h
  simp only [List.cons.injEq, eq_self_iff_true, true_and] at h
  cases os' <;> cases he : e.surSiteCCFHK <;> simp_all

/-- Concrete sample date for witness instances. -/
def sampleDate : JSDate := ⟨2025, 7, 1, 0, 0, 0⟩

/-- Concrete sample normalized event for witness instances. -/
def sampleEvent : Event :=
  { department := "Culture", date := sampleDate, startDate := sampleDate, endDate := none,
    hasTime := false, service := "Expo", event := "Vernissage", sheetId := 3, rowIndex := 2,
    surSiteCCFHK := true, surCalendrierExcel := false, surCalendrierExcelRaw := "" }

/-- C4: for every event, changing exactly one of department, start, end,
onSite (sur site), service, or title while holding the others fixed changes
the value of `computeEventHash`, and changing any other field (the
on-external-calendar flag and its raw form, the row position, the sheet id,
the `hasTime` flag, the legacy `date` mirror) leaves the hash unchanged. -/
theorem claim_C4_hash_sensitivity (e : Event) (d' : String) (s' : JSDate)
    (en' : Option JSDate) (sv' ti' : String) (os' : Bool)
    (hd : d' ≠ e.department) (hs : s' ≠ e.startDate) (hen : en' ≠ e.endDate)
    (hsv : sv' ≠ e.service) (hti : ti' ≠ e.event) (hos : os' ≠ e.surSiteCCFHK) :
    computeEventHash { e with department := d' } ≠ computeEventHash e ∧
    computeEventHash { e with startDate := s' } ≠ computeEventHash e ∧
    computeEventHash { e with endDate := en' } ≠ computeEventHash e ∧
    computeEventHash { e with surSiteCCFHK := os' } ≠ computeEventHash e ∧
    computeEventHash { e with service := sv' } ≠ computeEventHash e ∧
    computeEventHash { e with event := ti' } ≠ computeEventHash e ∧
    ∀ (x : Bool) (r : String) (i si : Nat) (t : Bool) (dd : JSDate),
      computeEventHash
        { e with
            surCalendrierExcel := x, surCalendrierExcelRaw := r,
            rowIndex := i, sheetId := si, hasTime := t, date := dd } =
        computeEventHash e :=
  ⟨fun h => hd (hash_dept_cancel e d' h),
   fun h => hs (hash_start_cancel e s' h),
   fun h => hen (hash_end_cancel e en' h),
   fun h => hos (hash_surSite_cancel e os' h),
   fun h => hsv (hash_service_cancel e sv' h),
   fun h => hti (hash_title_cancel e ti' h),
   fun _ _ _ _ _ _ => rfl⟩

/-- Witness for C4 at a concrete event: changing only the department changes
the hash. -/
theorem claim_C4_hash_sensitivity_witness :
    ("Sport" : String) ≠ sampleEvent.department ∧
    computeEventHash { sampleEvent with department := "Sport" } ≠ computeEventHash sampleEvent :=
  ⟨by decide,
   (claim_C4_hash_sensitivity sampleEvent "Sport" ⟨2025, 7, 2, 0, 0, 0⟩
      (some ⟨2025, 7, 3, 0, 0, 0⟩) "Autre" "AutreTitre" false
      (by decide) (by decide) (by decide) (by decide) (by decide) (by decide)).1⟩

/-- C10: the hash input built by `computeEventHash` is not injective over the
event's content fields: with the unescaped `|` separator, two events that
differ in their `service` and `event` (title) fields can produce the same
concatenated input, hence the same hash, so two content-distinct events get
the same sync identity. -/
theorem claim_C10_hash_collision :
    ∃ e1 e2 : Event, e1 ≠ e2 ∧ e1.service ≠ e2.service ∧ e1.event ≠ e2.event ∧
      computeEventHash e1 = computeEventHash e2 := by
  refine ⟨{ department := "D", date := ⟨2025, 7, 1, 0, 0, 0⟩,
            startDate := ⟨2025, 7, 1, 0, 0, 0⟩, endDate := none, hasTime := false,
            service := "a|b", event := "c", sheetId := 1, rowIndex := 2,
            surSiteCCFHK := true, surCalendrierExcel := false, surCalendrierExcelRaw := "" },
          { department := "D", date := ⟨2025, 7, 1, 0, 0, 0⟩,
            startDate := ⟨2025, 7, 1, 0, 0, 0⟩, endDate := none, hasTime := false,
            service := "a", event := "b|c", sheetId := 1, rowIndex := 2,
            surSiteCCFHK := true, surCalendrierExcel := false, surCalendrierExcelRaw := "" },
          ?_, ?_, ?_, ?_⟩ <;> decide

/-- A value of the in-memory sync tracking `Map` = a data row of the hidden
`_CalendarSync` sheet (source `getSyncTrackingData`, lines 1780-1805). -/
structure TrackingValue where
  gcalEventId : String
  department : String
  eventDate : List Char
  lastSynced : Nat
deriving DecidableEq, Repr

/-- The tracking `Map` (event hash -> tracking value) as an insertion-ordered
association list, the observable behaviour of a JS `Map`. -/
abbrev TrackingMap := List (List Char × TrackingValue)

/-- Model of `Map.prototype.get`. -/
def mapGet : TrackingMap → List Char → Option TrackingValue
  | [], _ => none
  | (k, v) :: rest, h => if k = h then some v else mapGet rest h

/-- Model of `Map.prototype.set`: updates the value in place when the key exists
(keeping its insertion position), appends otherwise. -/
def mapSet : TrackingMap → List Char → TrackingValue → TrackingMap
  | [], h, v => [(h, v)]
  | (k, w) :: rest, h, v => if k = h then (h, v) :: rest else (k, w) :: mapSet rest h v

/-- Model of `Utilities.formatDate(event.date, 'GMT', 'yyyy-MM-dd')` (source line
2002), modelled as the unpadded decimal day key of the date's components
(`getMonth() + 1` for the calendar month). -/
def formatDateKeyGMT (d : JSDate) : List Char :=
  encNat d.year ++ '-' :: encNat (d.month + 1) ++ '-' :: encNat d.day

/-- Loop state of the per-event pass of `syncToGoogleCalendar`
(source lines 1973-2018). -/
structure SyncState where
  seenHashes : List (List Char)
  newTrackingMap : TrackingMap
  created : Nat
  unchanged : Nat
  syncErrors : Nat
deriving Repr

/-- One iteration of `eventsToSync.forEach` in `syncToGoogleCalendar`
(source lines 1983-2018).  `trackingMap` is the run's initial tracking map
(the source never mutates it inside this loop).  `create e` is the outcome
of `createCalendarEvent` for `e`: `some id` when the external create
returned id `id`, `none` when it threw (the `catch` then logs a `SYNC_GCAL`
error and writes no tracking entry). -/
def processSyncEvent (trackingMap : TrackingMap) (create : Event → Option String) (now : Nat)
    (st : SyncState) (e : Event) : SyncState :=
  match mapGet trackingMap (computeEventHash e) with
  | some existingEntry =>
    { st with seenHashes := st.seenHashes ++ [computeEventHash e],
              newTrackingMap := mapSet st.newTrackingMap (computeEventHash e) existingEntry,
              unchanged := st.unchanged + 1 }
  | none =>
    match create e with
    | some gcalEventId =>
      { st with seenHashes := st.seenHashes ++ [computeEventHash e],
                newTrackingMap := mapSet st.newTrackingMap (computeEventHash e)
                  ⟨gcalEventId, e.department, formatDateKeyGMT e.date, now⟩,
                created := st.created + 1 }
    | none =>
      { st with seenHashes := st.seenHashes ++ [computeEventHash e],
                syncErrors := st.syncErrors + 1 }

/-- Model of `deleteCalendarEvent` (source lines 1933-1942): the whole body is inside
`try/catch`, so a store-level failure is logged and swallowed; the caller
observes a normal return either way.  The returned `Bool` is only the
store-level outcome supplied by the oracle, it is invisible to the caller's
control flow (the JS function returns `undefined`). -/
def deleteCalendarEvent (storeDeleteOk : String → Bool) (gcalEventId : String) : Bool :=
  storeDeleteOk gcalEventId

/-- The stale-entry pass of `syncToGoogleCalendar` (source lines 2021-2037):
for every tracked hash not seen this run, call `deleteCalendarEvent` and
count it as deleted.  Because `deleteCalendarEvent` never throws, the
`catch` branch of this loop is unreachable and `deleted` counts every
attempt regardless of the store-level outcome.  Returns
(`deleted` counter, ids passed to `deleteCalendarEvent` in order). -/
def processDeletes (storeDeleteOk : String → Bool) (seenHashes : List (List Char)) :
    TrackingMap → Nat × List String
  | [] => (0, [])
  | (hash, v) :: rest =>
    if seenHashes.contains hash then processDeletes storeDeleteOk seenHashes rest
    else
      let _ok := deleteCalendarEvent storeDeleteOk v.gcalEventId
      let (d, calls) := processDeletes storeDeleteOk seenHashes rest
      (d + 1, v.gcalEventId :: calls)

/-- Model of `writeSyncTracking` (source lines 1811-1828): clears the tracking sheet
below its header, then writes one row per map entry in insertion order; the
persisted sheet content is therefore exactly the map's entries. -/
def writeSyncTracking (trackingMap : TrackingMap) : TrackingMap :=
  trackingMap

/-- The observable outcome of one `syncToGoogleCalendar` run. -/
structure SyncResult where
  newTracking : TrackingMap
  created : Nat
  unchanged : Nat
  deleted : Nat
  syncErrors : Nat
  deleteCalls : List String
deriving Repr

/-- Model of `syncToGoogleCalendar` (source lines 1948-2047): filter the syncable
subset (`surSiteCCFHK = true`), run the per-event pass, run the stale-delete
pass, persist the new tracking map with `writeSyncTracking`. -/
def syncToGoogleCalendar (allEvents : List Event) (trackingMap : TrackingMap)
    (create : Event → Option String) (storeDeleteOk : String → Bool) (now : Nat) : SyncResult :=
  let eventsToSync := allEvents.filter (fun e => e.surSiteCCFHK)
  let st := eventsToSync.foldl (processSyncEvent trackingMap create now) ⟨[], [], 0, 0, 0⟩
  let del := processDeletes storeDeleteOk st.seenHashes trackingMap
  { newTracking := writeSyncTracking st.newTrackingMap, created := st.created,
    unchanged := st.unchanged, deleted := del.1, syncErrors := st.syncErrors,
    deleteCalls := del.2 }

theorem mapGet_mapSet_self (m : TrackingMap) (k : List Char) (v : TrackingValue) :
    mapGet (mapSet m k v) k = some v := by
  induction m with
  | nil => simp [mapSet, mapGet]
  | cons kv rest ih =>
    obtain ⟨k0, w⟩ := kv
    by_cases hk : k0 = k
    · simp [mapSet, hk, mapGet]
    · simp [mapSet, hk, mapGet, ih]

theorem mapGet_mapSet_ne (m : TrackingMap) (k : List Char) (v : TrackingValue)
    (k' : List Char) (h : k ≠ k') : mapGet (mapSet m k v) k' = mapGet m k' := by
  induction m with
  | nil => simp [mapSet, mapGet, h]
  | cons kv rest ih =>
    obtain ⟨k0, w⟩ := kv
    by_cases hk : k0 = k
    · subst hk
      simp [mapSet, mapGet, h]
    · simp [mapSet, hk, mapGet, ih]

theorem mem_mapSet (m : TrackingMap) (k : List Char) (v : TrackingValue)
    (kv : List Char × TrackingValue) (hm : kv ∈ mapSet m k v) : kv.1 = k ∨ kv ∈ m := by
  induction m with
  | nil =>
    simp only [mapSet, List.mem_singleton] at hm
    left
    rw [hm]
  | cons kv0 rest ih =>
    obtain ⟨k0, w⟩ := kv0
    by_cases hk : k0 = k
    · simp only [mapSet, if_pos hk] at hm
      rcases List.mem_cons.mp hm with h | h
      · left; rw [h]
      · right; exact List.mem_cons_of_mem _ h
    · simp only [mapSet, if_neg hk] at hm
      rcases List.mem_cons.mp hm with h | h
      · right; rw [h]; exact List.mem_cons_self _ _
      · rcases ih h with h2 | h2
        · left; exact h2
        · right; exact List.mem_cons_of_mem _ h2

theorem processSyncEvent_seen (trackingMap : TrackingMap) (create : Event → Option String)
    (now : Nat) (st : SyncState) (e : Event) :
    (processSyncEvent trackingMap create now st e).seenHashes =
      st.seenHashes ++ [computeEventHash e] := by
  unfold processSyncEvent
  cases hg : mapGet trackingMap (computeEventHash e) with
  | some v => rfl
  | none =>
    cases hc : create e with
    | some id => rfl
    | none => rfl

theorem foldSync_seen (trackingMap : TrackingMap) (create : Event → Option String) (now : Nat) :
    ∀ (es : List Event) (st : SyncState),
      (es.foldl (processSyncEvent trackingMap create now) st).seenHashes =
        st.seenHashes ++ es.map computeEventHash := by
  intro es
  induction es with
  | nil => intro st; simp
  | cons e es ih =>
    intro st
    rw [List.foldl_cons, ih, processSyncEvent_seen]
    simp

theorem processSyncEvent_count (trackingMap : TrackingMap) (create : Event → Option String)
    (now : Nat) (st : SyncState) (e : Event) :
    (processSyncEvent trackingMap create now st e).created +
      (processSyncEvent trackingMap create now st e).unchanged +
      (processSyncEvent trackingMap create now st e).syncErrors =
      st.created + st.unchanged + st.syncErrors + 1 := by
  unfold processSyncEvent
  cases hg : mapGet trackingMap (computeEventHash e) with
  | some v => simp only []; omega
  | none =>
    cases hc : create e with
    | some id => simp only []; omega
    | none => simp only []; omega

theorem foldSync_count (trackingMap : TrackingMap) (create : Event → Option String) (now : Nat) :
    ∀ (es : List Event) (st : SyncState),
      (es.foldl (processSyncEvent trackingMap create now) st).created +
        (es.foldl (processSyncEvent trackingMap create now) st).unchanged +
        (es.foldl (processSyncEvent trackingMap create now) st).syncErrors =
        st.created + st.unchanged + st.syncErrors + es.length := by
  intro es
  induction es with
  | nil => intro st; simp
  | cons e es ih =>
    intro st
    rw [List.foldl_cons, ih, processSyncEvent_count]
    simp
    omega

theorem processSyncEvent_tracking_other (trackingMap : TrackingMap)
    (create : Event → Option String) (now : Nat) (st : SyncState) (e : Event)
    (k : List Char) (hk : computeEventHash e ≠ k) :
    mapGet (processSyncEvent trackingMap create now st e).newTrackingMap k =
      mapGet st.newTrackingMap k := by
  unfold processSyncEvent
  cases hg : mapGet trackingMap (computeEventHash e) with
  | some v => exact mapGet_mapSet_ne _ _ _ _ hk
  | none =>
    cases hc : create e with
    | some id => exact mapGet_mapSet_ne _ _ _ _ hk
    | none => rfl

theorem foldSync_not_mem (trackingMap : TrackingMap) (create : Event → Option String)
    (now : Nat) : ∀ (es : List Event) (st : SyncState) (k : List Char),
      k ∉ es.map computeEventHash →
      mapGet (es.foldl (processSyncEvent trackingMap create now) st).newTrackingMap k =
        mapGet st.newTrackingMap k := by
  intro es
  induction es with
  | nil => intro st k _; rfl
  | cons e es ih =>
    intro st k hk
    simp only [List.map_cons, List.mem_cons] at hk
    push_neg at hk
    rw [List.foldl_cons, ih _ _ hk.2, processSyncEvent_tracking_other]
    exact fun h => hk.1 h.symm

theorem processSyncEvent_tracking_found (trackingMap : TrackingMap)
    (create : Event → Option String) (now : Nat) (st : SyncState) (e : Event)
    (v : TrackingValue) (hv : mapGet trackingMap (computeEventHash e) = some v) :
    mapGet (processSyncEvent trackingMap create now st e).newTrackingMap (computeEventHash e) =
      some v := by
  unfold processSyncEvent
  rw [hv]
  exact mapGet_mapSet_self _ _ _

theorem foldSync_carried (trackingMap : TrackingMap) (create : Event → Option String)
    (now : Nat) (k : List Char) (v : TrackingValue) (hk : mapGet trackingMap k = some v) :
    ∀ (es : List Event) (st : SyncState),
      (mapGet st.newTrackingMap k = some v ∨ k ∈ es.map computeEventHash) →
      mapGet (es.foldl (processSyncEvent trackingMap create now) st).newTrackingMap k = some v := by
  intro es
  induction es with
  | nil =>
    intro st h
    rcases h with h | h
    · exact h
    · simp at h
  | cons e es ih =>
    intro st h
    rw [List.foldl_cons]
    by_cases he : computeEventHash e = k
    · apply ih
      left
      have := processSyncEvent_tracking_found trackingMap create now st e v (by rw [he]; exact hk)
      rw [he] at this
      exact this
    · apply ih
      rcases h with h | h
      · left
        rw [processSyncEvent_tracking_other _ _ _ _ _ _ he]
        exact h
      · simp only [List.map_cons, List.mem_cons] at h
        rcases h with h | h
        · exact absurd h.symm he
        · right; exact h

theorem foldSync_new_exists (trackingMap : TrackingMap) (create : Event → Option String)
    (now : Nat) (k : List Char) (hk : mapGet trackingMap k = none) :
    ∀ (es : List Event) (st : SyncState),
      (mapGet (es.foldl (processSyncEvent trackingMap create now) st).newTrackingMap k ≠ none ↔
        (mapGet st.newTrackingMap k ≠ none ∨
          ∃ e ∈ es, computeEventHash e = k ∧ create e ≠ none)) := by
  intro es
  induction es with
  | nil =>
    intro st
    simp
  | cons e es ih =>
    intro st
    rw [List.foldl_cons, ih]
    by_cases he : computeEventHash e = k
    · constructor
      · rintro (h | h)
        · unfold processSyncEvent at h
          rw [he, hk] at h
          cases hc : create e with
          | some id =>
            right
            exact ⟨e, List.mem_cons_self _ _, he, by rw [hc]; exact Option.some_ne_none id⟩
          | none =>
            rw [hc] at h
            left
            exact h
        · rcases h with ⟨e0, he0, hh0, hc0⟩
          right
          exact ⟨e0, List.mem_cons_of_mem _ he0, hh0, hc0⟩
      · rintro (h | h)
        · left
          unfold processSyncEvent
          rw [he, hk]
          cases hc : create e with
          | some id =>
            show mapGet (mapSet st.newTrackingMap k
              ⟨id, e.department, formatDateKeyGMT e.date, now⟩) k ≠ none
            rw [mapGet_mapSet_self]
            exact Option.some_ne_none _
          | none => exact h
        · rcases h with ⟨e0, he0, hh0, hc0⟩
          rcases List.mem_cons.mp he0 with h0 | h0
          · subst h0
            left
            unfold processSyncEvent
            rw [he, hk]
            cases hc : create e0 with
            | some id =>
              show mapGet (mapSet st.newTrackingMap k
                ⟨id, e0.department, formatDateKeyGMT e0.date, now⟩) k ≠ none
              rw [mapGet_mapSet_self]
              exact Option.some_ne_none _
            | none => exact absurd hc hc0
          · right
            exact ⟨e0, h0, hh0, hc0⟩
    · rw [processSyncEvent_tracking_other _ _ _ _ _ _ he]
      constructor
      · rintro (h | h)
        · left; exact h
        · rcases h with ⟨e0, he0, hh0, hc0⟩
          right
          exact ⟨e0, List.mem_cons_of_mem _ he0, hh0, hc0⟩
      · rintro (h | h)
        · left; exact h
        · rcases h with ⟨e0, he0, hh0, hc0⟩
          rcases List.mem_cons.mp he0 with h0 | h0
          · subst h0; exact absurd hh0 he
          · right; exact ⟨e0, h0, hh0, hc0⟩

theorem foldSync_new_shape (trackingMap : TrackingMap) (create : Event → Option String)
    (now : Nat) (k : List Char) (hk : mapGet trackingMap k = none)
    (Q : TrackingValue → Prop) :
    ∀ (es : List Event) (st : SyncState),
      (∀ e ∈ es, computeEventHash e = k → ∀ id, create e = some id →
        Q ⟨id, e.department, formatDateKeyGMT e.date, now⟩) →
      (∀ v, mapGet st.newTrackingMap k = some v → Q v) →
      ∀ v, mapGet (es.foldl (processSyncEvent trackingMap create now) st).newTrackingMap k =
        some v → Q v := by
  intro es
  induction es with
  | nil => intro st _ hst v hv; exact hst v hv
  | cons e es ih =>
    intro st hQ hst v hv
    rw [List.foldl_cons] at hv
    by_cases he : computeEventHash e = k
    · refine ih _ (fun e0 he0 => hQ e0 (List.mem_cons_of_mem _ he0)) ?_ v hv
      intro w hw
      unfold processSyncEvent at hw
      rw [he, hk] at hw
      cases hc : create e with
      | some id =>
        rw [hc] at hw
        have hw2 : mapGet (mapSet st.newTrackingMap k
            ⟨id, e.department, formatDateKeyGMT e.date, now⟩) k = some w := hw
        rw [mapGet_mapSet_self] at hw2
        cases hw2
        exact hQ e (List.mem_cons_self _ _) he id hc
      | none =>
        rw [hc] at hw
        exact hst w hw
    · refine ih _ (fun e0 he0 => hQ e0 (List.mem_cons_of_mem _ he0)) ?_ v hv
      intro w hw
      rw [processSyncEvent_tracking_other _ _ _ _ _ _ he] at hw
      exact hst w hw

theorem foldSync_keys (trackingMap : TrackingMap) (create : Event → Option String)
    (now : Nat) (P : List Char → Prop) :
    ∀ (es : List Event) (st : SyncState),
      (∀ kv ∈ st.newTrackingMap, P kv.1) → (∀ e ∈ es, P (computeEventHash e)) →
      ∀ kv ∈ (es.foldl (processSyncEvent trackingMap create now) st).newTrackingMap, P kv.1 := by
  intro es
  induction es with
  | nil => intro st hst _ kv hkv; exact hst kv hkv
  | cons e es ih =>
    intro st hst hes kv hkv
    rw [List.foldl_cons] at hkv
    refine ih _ ?_ (fun e0 he0 => hes e0 (List.mem_cons_of_mem _ he0)) kv hkv
    intro kv0 hkv0
    unfold processSyncEvent at hkv0
    cases hg : mapGet trackingMap (computeEventHash e) with
    | some v =>
      rw [hg] at hkv0
      rcases mem_mapSet _ _ _ _ hkv0 with h | h
      · rw [h]; exact hes e (List.mem_cons_self _ _)
      · exact hst kv0 h
    | none =>
      rw [hg] at hkv0
      cases hc : create e with
      | some id =>
        rw [hc] at hkv0
        rcases mem_mapSet _ _ _ _ hkv0 with h | h
        · rw [h]; exact hes e (List.mem_cons_self _ _)
        · exact hst kv0 h
      | none =>
        rw [hc] at hkv0
        exact hst kv0 hkv0

theorem processDeletes_all_seen (storeDeleteOk : String → Bool)
    (seenHashes : List (List Char)) :
    ∀ tr : TrackingMap, (∀ kv ∈ tr, kv.1 ∈ seenHashes) →
      processDeletes storeDeleteOk seenHashes tr = (0, []) := by
  intro tr
  induction tr with
  | nil => intro _; rfl
  | cons kv rest ih =>
    intro h
    obtain ⟨k0, v0⟩ := kv
    have hmem : k0 ∈ seenHashes := h (k0, v0) (List.mem_cons_self _ _)
    have hcont : seenHashes.contains k0 = true := List.elem_eq_true_of_mem hmem
    simp only [processDeletes, hcont, if_pos]
    exact ih (fun kv hkv => h kv (List.mem_cons_of_mem _ hkv))

theorem foldSync_all_found (trackingMap : TrackingMap) (create : Event → Option String)
    (now : Nat) : ∀ (es : List Event) (st : SyncState),
      (∀ e ∈ es, mapGet trackingMap (computeEventHash e) ≠ none) →
      (es.foldl (processSyncEvent trackingMap create now) st).created = st.created ∧
      (es.foldl (processSyncEvent trackingMap create now) st).syncErrors = st.syncErrors := by
  intro es
  induction es with
  | nil => intro st _; exact ⟨rfl, rfl⟩
  | cons e es ih =>
    intro st hfound
    rw [List.foldl_cons]
    obtain ⟨v, hv⟩ := Option.ne_none_iff_exists'.mp (hfound e (List.mem_cons_self _ _))
    have hstep : (processSyncEvent trackingMap create now st e).created = st.created ∧
        (processSyncEvent trackingMap create now st e).syncErrors = st.syncErrors := by
      unfold processSyncEvent
      rw [hv]
      exact ⟨rfl, rfl⟩
    have := ih (processSyncEvent trackingMap create now st e)
      (fun e0 he0 => hfound e0 (List.mem_cons_of_mem _ he0))
    rw [this.1, this.2, hstep.1, hstep.2]
    exact ⟨rfl, rfl⟩

/-- C1 counterexample: a reconciliation run over a tracking map with one
stale entry whose external delete FAILS at the store level
(`storeDeleteOk` answers `false`).  The run attempts the delete
(`deleteCalls = ["gcal-1"]`) and nevertheless removes the tracking entry:
the persisted tracking is empty, so the delete is NOT retried on the next
run, contrary to the claim that the entry is left in place. -/
theorem claim_C1_counterexample :
    (syncToGoogleCalendar [] [(['h'], ⟨"gcal-1", "Culture", [], 0⟩)]
        (fun _ => none) (fun _ => false) 5).deleteCalls = ["gcal-1"] ∧
    (syncToGoogleCalendar [] [(['h'], ⟨"gcal-1", "Culture", [], 0⟩)]
        (fun _ => none) (fun _ => false) 5).newTracking = [] := by
  exact ⟨rfl, rfl⟩

/-- C1 (amended): a failed create writes no tracking entry (so the create is
retried next run), and no individual create/delete failure aborts the run
(every syncable event receives exactly one of the three outcomes); however a
stale entry is removed from tracking unconditionally — `deleteCalendarEvent`
swallows the store-level failure internally — so a failed delete is NOT
retried. -/
theorem claim_C1_failed_ops (allEvents : List Event) (tr : TrackingMap)
    (create : Event → Option String) (storeDeleteOk : String → Bool) (now : Nat) :
    (∀ h, mapGet tr h = none →
      (∀ e ∈ allEvents.filter (fun e => e.surSiteCCFHK),
        computeEventHash e = h → create e = none) →
      mapGet (syncToGoogleCalendar allEvents tr create storeDeleteOk now).newTracking h =
        none) ∧
    (syncToGoogleCalendar allEvents tr create storeDeleteOk now).created +
        (syncToGoogleCalendar allEvents tr create storeDeleteOk now).unchanged +
        (syncToGoogleCalendar allEvents tr create storeDeleteOk now).syncErrors =
      (allEvents.filter (fun e => e.surSiteCCFHK)).length ∧
    (∀ h, h ∉ (allEvents.filter (fun e => e.surSiteCCFHK)).map computeEventHash →
      mapGet (syncToGoogleCalendar allEvents tr create storeDeleteOk now).newTracking h =
        none) := by
  refine ⟨?_, ?_, ?_⟩
  · intro h hnone hall
    simp only [syncToGoogleCalendar, writeSyncTracking]
    by_contra hne
    rcases (foldSync_new_exists tr create now h hnone _ ⟨[], [], 0, 0, 0⟩).mp hne with
      hcontra | ⟨e, he, hh, hc⟩
    · exact hcontra rfl
    · exact hc (hall e he hh)
  · simp only [syncToGoogleCalendar, writeSyncTracking]
    have := foldSync_count tr create now (allEvents.filter (fun e => e.surSiteCCFHK))
      ⟨[], [], 0, 0, 0⟩
    simpa using this
  · intro h hmem
    simp only [syncToGoogleCalendar, writeSyncTracking]
    rw [foldSync_not_mem tr create now _ _ _ hmem]
    rfl

/-- Witness for C1 (amended): with one syncable event whose external create
fails, the run writes no tracking entry for that event's hash. -/
theorem claim_C1_failed_ops_witness :
    mapGet (syncToGoogleCalendar [sampleEvent] [] (fun _ => none)
      (fun _ => true) 7).newTracking (computeEventHash sampleEvent) = none :=
  (claim_C1_failed_ops [sampleEvent] [] (fun _ => none) (fun _ => true) 7).1
    (computeEventHash sampleEvent) rfl (fun _ _ _ => rfl)

/-- C2: after a reconciliation run the persisted tracking store (what
`writeSyncTracking` rewrote) is exactly the union of the seen-and-present
entries, carried forward unchanged, and the entries newly created this run:
(a) a tracked hash still in the current syncable set keeps its exact entry;
(b) a hash absent from the current syncable set has no entry (stale entries
are removed, nothing else appears); (c) a hash new to tracking has an entry
iff some syncable event with that hash had a successful create, and any such
entry records that event's created id, department, GMT day key, and the
run's timestamp. -/
theorem claim_C2_tracking_exact (allEvents : List Event) (tr : TrackingMap)
    (create : Event → Option String) (storeDeleteOk : String → Bool) (now : Nat) :
    (∀ h v, mapGet tr h = some v →
      h ∈ (allEvents.filter (fun e => e.surSiteCCFHK)).map computeEventHash →
      mapGet (syncToGoogleCalendar allEvents tr create storeDeleteOk now).newTracking h =
        some v) ∧
    (∀ h, h ∉ (allEvents.filter (fun e => e.surSiteCCFHK)).map computeEventHash →
      mapGet (syncToGoogleCalendar allEvents tr create storeDeleteOk now).newTracking h =
        none) ∧
    (∀ h, mapGet tr h = none →
      ((mapGet (syncToGoogleCalendar allEvents tr create storeDeleteOk now).newTracking h ≠
          none ↔
        ∃ e ∈ allEvents.filter (fun e => e.surSiteCCFHK),
          computeEventHash e = h ∧ create e ≠ none) ∧
       ∀ v, mapGet (syncToGoogleCalendar allEvents tr create storeDeleteOk now).newTracking h =
          some v →
        ∃ e ∈ allEvents.filter (fun e => e.surSiteCCFHK),
          computeEventHash e = h ∧ create e = some v.gcalEventId ∧
          v.department = e.department ∧ v.eventDate = formatDateKeyGMT e.date ∧
          v.lastSynced = now)) := by
  refine ⟨?_, ?_, ?_⟩
  · intro h v hv hmem
    simp only [syncToGoogleCalendar, writeSyncTracking]
    exact foldSync_carried tr create now h v hv _ ⟨[], [], 0, 0, 0⟩ (Or.inr hmem)
  · intro h hmem
    simp only [syncToGoogleCalendar, writeSyncTracking]
    rw [foldSync_not_mem tr create now _ _ _ hmem]
    rfl
  · intro h hnone
    constructor
    · simp only [syncToGoogleCalendar, writeSyncTracking]
      rw [foldSync_new_exists tr create now h hnone _ ⟨[], [], 0, 0, 0⟩]
      constructor
      · rintro (hc | hc)
        · exact absurd rfl hc
        · exact hc
      · exact fun hc => Or.inr hc
    · intro v
      simp only [syncToGoogleCalendar, writeSyncTracking]
      refine foldSync_new_shape tr create now h hnone
        (fun w => ∃ e ∈ allEvents.filter (fun e => e.surSiteCCFHK),
          computeEventHash e = h ∧ create e = some w.gcalEventId ∧
          w.department = e.department ∧ w.eventDate = formatDateKeyGMT e.date ∧
          w.lastSynced = now) _ ⟨[], [], 0, 0, 0⟩ ?_ ?_ v
      · intro e he hh id hc
        exact ⟨e, he, hh, hc, rfl, rfl, rfl⟩
      · intro w hw
        cases hw

/-- Witness for C2 at a concrete run: a previously tracked hash still in the
syncable set keeps its entry unchanged. -/
theorem claim_C2_tracking_exact_witness :
    mapGet (syncToGoogleCalendar [sampleEvent]
        [(computeEventHash sampleEvent, ⟨"id0", "Culture", [], 3⟩)]
        (fun _ => some "fresh") (fun _ => true) 9).newTracking
      (computeEventHash sampleEvent) = some ⟨"id0", "Culture", [], 3⟩ :=
  (claim_C2_tracking_exact [sampleEvent]
      [(computeEventHash sampleEvent, ⟨"id0", "Culture", [], 3⟩)]
      (fun _ => some "fresh") (fun _ => true) 9).1
    (computeEventHash sampleEvent) ⟨"id0", "Culture", [], 3⟩ (by decide) (by decide)

/-- C3: reconciliation is idempotent.  If every create of the first run
succeeded (a normally-operating run) and the source rows are unchanged, the
second run performs zero external create calls (`created = 0` and
`syncErrors = 0`, so `createCalendarEvent` is never reached), zero external
delete calls (`deleted = 0`, `deleteCalls = []`), and leaves the tracking
set unchanged; moreover in any run every hash found in both the old
tracking and the current syncable set carries its entry forward unchanged. -/
theorem claim_C3_idempotence (allEvents : List Event) (tr : TrackingMap)
    (create1 create2 : Event → Option String) (dOk1 dOk2 : String → Bool) (now1 now2 : Nat)
    (hsucc : ∀ e ∈ allEvents.filter (fun e => e.surSiteCCFHK), create1 e ≠ none) :
    (syncToGoogleCalendar allEvents
        (syncToGoogleCalendar allEvents tr create1 dOk1 now1).newTracking
        create2 dOk2 now2).created = 0 ∧
    (syncToGoogleCalendar allEvents
        (syncToGoogleCalendar allEvents tr create1 dOk1 now1).newTracking
        create2 dOk2 now2).syncErrors = 0 ∧
    (syncToGoogleCalendar allEvents
        (syncToGoogleCalendar allEvents tr create1 dOk1 now1).newTracking
        create2 dOk2 now2).deleted = 0 ∧
    (syncToGoogleCalendar allEvents
        (syncToGoogleCalendar allEvents tr create1 dOk1 now1).newTracking
        create2 dOk2 now2).deleteCalls = [] ∧
    (∀ h, mapGet (syncToGoogleCalendar allEvents
        (syncToGoogleCalendar allEvents tr create1 dOk1 now1).newTracking
        create2 dOk2 now2).newTracking h =
      mapGet (syncToGoogleCalendar allEvents tr create1 dOk1 now1).newTracking h) ∧
    (∀ h v, mapGet tr h = some v →
      h ∈ (allEvents.filter (fun e => e.surSiteCCFHK)).map computeEventHash →
      mapGet (syncToGoogleCalendar allEvents tr create1 dOk1 now1).newTracking h = some v) := by
  simp only [syncToGoogleCalendar, writeSyncTracking]
  have hfound : ∀ e ∈ allEvents.filter (fun e => e.surSiteCCFHK),
      mapGet ((allEvents.filter (fun e => e.surSiteCCFHK)).foldl
        (processSyncEvent tr create1 now1) ⟨[], [], 0, 0, 0⟩).newTrackingMap
        (computeEventHash e) ≠ none := by
    intro e he
    cases hc : mapGet tr (computeEventHash e) with
    | some v =>
      rw [foldSync_carried tr create1 now1 _ v hc _ ⟨[], [], 0, 0, 0⟩
        (Or.inr (List.mem_map_of_mem _ he))]
      exact Option.some_ne_none v
    | none =>
      exact (foldSync_new_exists tr create1 now1 _ hc _ ⟨[], [], 0, 0, 0⟩).mpr
        (Or.inr ⟨e, he, rfl, hsucc e he⟩)
  have hkeys : ∀ kv ∈ ((allEvents.filter (fun e => e.surSiteCCFHK)).foldl
      (processSyncEvent tr create1 now1) ⟨[], [], 0, 0, 0⟩).newTrackingMap,
      kv.1 ∈ (allEvents.filter (fun e => e.surSiteCCFHK)).map computeEventHash := by
    refine foldSync_keys tr create1 now1 _ _ ⟨[], [], 0, 0, 0⟩ ?_ ?_
    · intro kv hkv
      cases hkv
    · intro e he
      exact List.mem_map_of_mem _ he
  have hcnt := foldSync_all_found
    ((allEvents.filter (fun e => e.surSiteCCFHK)).foldl
      (processSyncEvent tr create1 now1) ⟨[], [], 0, 0, 0⟩).newTrackingMap
    create2 now2 (allEvents.filter (fun e => e.surSiteCCFHK)) ⟨[], [], 0, 0, 0⟩ hfound
  have hseen := foldSync_seen
    ((allEvents.filter (fun e => e.surSiteCCFHK)).foldl
      (processSyncEvent tr create1 now1) ⟨[], [], 0, 0, 0⟩).newTrackingMap
    create2 now2 (allEvents.filter (fun e => e.surSiteCCFHK)) ⟨[], [], 0, 0, 0⟩
  have hdel : processDeletes dOk2
      ((allEvents.filter (fun e => e.surSiteCCFHK)).foldl
        (processSyncEvent ((allEvents.filter (fun e => e.surSiteCCFHK)).foldl
          (processSyncEvent tr create1 now1) ⟨[], [], 0, 0, 0⟩).newTrackingMap
          create2 now2) ⟨[], [], 0, 0, 0⟩).seenHashes
      ((allEvents.filter (fun e => e.surSiteCCFHK)).foldl
        (processSyncEvent tr create1 now1) ⟨[], [], 0, 0, 0⟩).newTrackingMap = (0, []) := by
    refine processDeletes_all_seen dOk2 _ _ ?_
    intro kv hkv
    rw [hseen]
    simpa using hkeys kv hkv
  refine ⟨hcnt.1, hcnt.2, ?_, ?_, ?_, ?_⟩
  · rw [hdel]
  · rw [hdel]
  · intro h
    by_cases hmem : h ∈ (allEvents.filter (fun e => e.surSiteCCFHK)).map computeEventHash
    · obtain ⟨e, he, hhe⟩ := List.mem_map.mp hmem
      subst hhe
      obtain ⟨v, hv⟩ := Option.ne_none_iff_exists'.mp (hfound e he)
      rw [hv]
      exact foldSync_carried _ create2 now2 _ v hv _ ⟨[], [], 0, 0, 0⟩ (Or.inr hmem)
    · rw [foldSync_not_mem _ create2 now2 _ _ _ hmem,
        foldSync_not_mem tr create1 now1 _ _ _ hmem]
  · intro h v hv hmem
    exact foldSync_carried tr create1 now1 h v hv _ ⟨[], [], 0, 0, 0⟩ (Or.inr hmem)

/-- Witness for C3 at a concrete pair of runs: second run over unchanged
source rows performs zero creates. -/
theorem claim_C3_idempotence_witness :
    (syncToGoogleCalendar [sampleEvent]
        (syncToGoogleCalendar [sampleEvent] [] (fun _ => some "id1")
          (fun _ => true) 1).newTracking
        (fun _ => none) (fun _ => true) 2).created = 0 :=
  (claim_C3_idempotence [sampleEvent] [] (fun _ => some "id1") (fun _ => none)
      (fun _ => true) (fun _ => true) 1 2 (by decide)).1

/-- A data row of the `Erreurs` sheet; columns Horodatage, Type,
Département, Ligne, Description, Détails (source `getErrorSheet`,
line 306).  `typ` is `row[1]`, the column `clearErrorsByType` matches on. -/
structure ErrorRow where
  horodatage : String
  typ : String
  department : String
  ligne : String
  description : String
  details : String
deriving DecidableEq, Repr

/-- Model of `clearErrorsByType` (source lines 396-422): read all data rows, keep the
rows whose type column differs from `typ` (`row[1] !== type`), clear the
data range and write the kept rows back from the top; the sheet's data rows
afterwards are exactly `rowsToKeep`. -/
def clearErrorsByType (rows : List ErrorRow) (typ : String) : List ErrorRow :=
  rows.filter (fun row => row.typ != typ)

/-- C9: the bulk clear-by-type operation removes exactly the rows whose type
column matches the given type: the result is a subsequence of the original
rows (relative order preserved), contains no matching row, keeps every
non-matching row with its multiplicity, and drops every matching row. -/
theorem claim_C9_clear_by_type (rows : List ErrorRow) (typ : String) :
    (clearErrorsByType rows typ).Sublist rows ∧
    (∀ r ∈ clearErrorsByType rows typ, r.typ ≠ typ) ∧
    (∀ r : ErrorRow, r.typ ≠ typ → (clearErrorsByType rows typ).count r = rows.count r) ∧
    (∀ r ∈ rows, r.typ = typ → r ∉ clearErrorsByType rows typ) := by
  refine ⟨List.filter_sublist rows, ?_, ?_, ?_⟩
  · intro r hr
    have := (List.mem_filter.mp hr).2
    simpa using this
  · intro r hr
    exact List.count_filter (by simpa using hr)
  · intro r _ hr hmem
    have := (List.mem_filter.mp hmem).2
    simp [hr] at this

/-- Witness for C9 at a concrete error sheet: the non-matching row keeps its
multiplicity after clearing data errors. -/
theorem claim_C9_clear_by_type_witness :
    (clearErrorsByType [⟨"t1", "DONNÉES", "Culture", "2", "d1", "x"⟩,
        ⟨"t2", "SYNC_GCAL", "Sport", "3", "d2", "y"⟩] "DONNÉES").count
      ⟨"t2", "SYNC_GCAL", "Sport", "3", "d2", "y"⟩ =
    ([⟨"t1", "DONNÉES", "Culture", "2", "d1", "x"⟩,
        ⟨"t2", "SYNC_GCAL", "Sport", "3", "d2", "y"⟩] : List ErrorRow).count
      ⟨"t2", "SYNC_GCAL", "Sport", "3", "d2", "y"⟩ :=
  (claim_C9_clear_by_type [⟨"t1", "DONNÉES", "Culture", "2", "d1", "x"⟩,
      ⟨"t2", "SYNC_GCAL", "Sport", "3", "d2", "y"⟩] "DONNÉES").2.2.1
    ⟨"t2", "SYNC_GCAL", "Sport", "3", "d2", "y"⟩ (by decide)

/-- A calendar-day key, the model of the `'yyyy-MM-dd'` string the source
builds with `Utilities.formatDate`/`formatDateKey` (month 1-based here, as
in the string); comparing the zero-padded strings is exactly the
lexicographic order on (year, month, day), which `dayKeyLe` implements. -/
structure DayKey where
  year : Nat
  month : Nat
  day : Nat
deriving DecidableEq, Repr

/-- String order of two `'yyyy-MM-dd'` keys. -/
def dayKeyLe (a b : DayKey) : Bool :=
  a.year < b.year || (a.year == b.year &&
    (a.month < b.month || (a.month == b.month && a.day ≤ b.day)))

/-- Model of `formatDateKey` (source lines 1118-1123): the `"YYYY-MM-DD"` key of a
date (`getMonth() + 1`). -/
def formatDateKey (d : JSDate) : DayKey := ⟨d.year, d.month + 1, d.day⟩

/-- One entry of `CONFIG.schoolHolidays` (a named date range). -/
structure SpecialPeriod where
  name : String
  startKey : DayKey
  endKey : DayKey
deriving DecidableEq, Repr

/-- One entry of `CONFIG.publicHolidays` (a named single date). -/
structure PublicHolidayEntry where
  dateKey : DayKey
  name : String
deriving DecidableEq, Repr

/-- Model of `CONFIG.schoolHolidays` (source lines 57-76). -/
def configSchoolHolidays (academicYear : String) : Option (List SpecialPeriod) :=
  if academicYear = "2024-2025" then some [
    ⟨"Vacances été", ⟨2024, 6, 28⟩, ⟨2024, 8, 27⟩⟩,
    ⟨"Vacances d\x27octobre", ⟨2024, 10, 25⟩, ⟨2024, 11, 1⟩⟩,
    ⟨"Vacances d\x27hiver", ⟨2024, 12, 23⟩, ⟨2025, 1, 5⟩⟩,
    ⟨"Vacances Nouvel An chinois", ⟨2025, 1, 29⟩, ⟨2025, 2, 2⟩⟩,
    ⟨"Vacances de Pâques", ⟨2025, 4, 14⟩, ⟨2025, 4, 27⟩⟩,
    ⟨"Vacances de printemps", ⟨2025, 5, 26⟩, ⟨2025, 5, 29⟩⟩,
    ⟨"Vacances été", ⟨2025, 6, 27⟩, ⟨2025, 8, 27⟩⟩]
  else if academicYear = "2025-2026" then some [
    ⟨"Vacances été", ⟨2025, 6, 27⟩, ⟨2025, 8, 27⟩⟩,
    ⟨"Vacances d\x27octobre", ⟨2025, 10, 24⟩, ⟨2025, 10, 31⟩⟩,
    ⟨"Vacances d\x27hiver", ⟨2025, 12, 22⟩, ⟨2026, 1, 2⟩⟩,
    ⟨"Vacances Nouvel An chinois", ⟨2026, 2, 16⟩, ⟨2026, 2, 20⟩⟩,
    ⟨"Vacances de Pâques", ⟨2026, 3, 30⟩, ⟨2026, 4, 10⟩⟩,
    ⟨"Vacances de printemps", ⟨2026, 5, 26⟩, ⟨2026, 5, 29⟩⟩,
    ⟨"Vacances été", ⟨2026, 6, 27⟩, ⟨2026, 8, 27⟩⟩]
  else none

/-- Model of `CONFIG.publicHolidays` (source lines 79-119). -/
def configPublicHolidays (academicYear : String) : Option (List PublicHolidayEntry) :=
  if academicYear = "2024-2025" then some [
    ⟨⟨2024, 9, 18⟩, "Après Mi-automne"⟩,
    ⟨⟨2024, 10, 1⟩, "Fête nationale"⟩,
    ⟨⟨2024, 10, 11⟩, "Chung Yeung"⟩,
    ⟨⟨2024, 12, 25⟩, "Noël"⟩,
    ⟨⟨2024, 12, 26⟩, "Boxing Day"⟩,
    ⟨⟨2025, 1, 1⟩, "Jour de l\x27an"⟩,
    ⟨⟨2025, 1, 29⟩, "Nouvel An chinois"⟩,
    ⟨⟨2025, 1, 30⟩, "2e jour Nouvel An chinois"⟩,
    ⟨⟨2025, 1, 31⟩, "3e jour Nouvel An chinois"⟩,
    ⟨⟨2025, 4, 4⟩, "Ching Ming"⟩,
    ⟨⟨2025, 4, 18⟩, "Vendredi saint"⟩,
    ⟨⟨2025, 4, 19⟩, "Après Vendredi saint"⟩,
    ⟨⟨2025, 4, 21⟩, "Lundi Pâques"⟩,
    ⟨⟨2025, 5, 1⟩, "Fête travail"⟩,
    ⟨⟨2025, 5, 5⟩, "Bouddha"⟩,
    ⟨⟨2025, 5, 31⟩, "Tuen Ng"⟩,
    ⟨⟨2025, 7, 1⟩, "Fête SAR HK"⟩]
  else if academicYear = "2025-2026" then some [
    ⟨⟨2025, 7, 1⟩, "Fête SAR HK"⟩,
    ⟨⟨2025, 10, 1⟩, "Fête nationale"⟩,
    ⟨⟨2025, 10, 7⟩, "Après Mi-automne"⟩,
    ⟨⟨2025, 10, 29⟩, "Chung Yeung"⟩,
    ⟨⟨2025, 12, 25⟩, "Noël"⟩,
    ⟨⟨2025, 12, 26⟩, "Boxing Day"⟩,
    ⟨⟨2026, 1, 1⟩, "Jour de l\x27an"⟩,
    ⟨⟨2026, 2, 17⟩, "Nouvel An chinois"⟩,
    ⟨⟨2026, 2, 18⟩, "2e jour Nouvel An chinois"⟩,
    ⟨⟨2026, 2, 19⟩, "3e jour Nouvel An chinois"⟩,
    ⟨⟨2026, 4, 3⟩, "Vendredi saint"⟩,
    ⟨⟨2026, 4, 4⟩, "Après Vendredi saint"⟩,
    ⟨⟨2026, 4, 6⟩, "Après Ching Ming"⟩,
    ⟨⟨2026, 4, 7⟩, "Après Lundi Pâques"⟩,
    ⟨⟨2026, 5, 1⟩, "Fête travail"⟩,
    ⟨⟨2026, 5, 25⟩, "Bouddha"⟩,
    ⟨⟨2026, 6, 19⟩, "Tuen Ng"⟩,
    ⟨⟨2026, 7, 1⟩, "Fête SAR HK"⟩]
  else none

/-- Model of `getSchoolHoliday` (source lines 223-235): first period of the academic
year's list whose `[start, end]` range (string comparison on `yyyy-MM-dd`)
contains the date. -/
def getSchoolHoliday (d : DayKey) (academicYear : String) : Option String :=
  match configSchoolHolidays academicYear with
  | none => none
  | some holidays =>
    (holidays.find? (fun p => dayKeyLe p.startKey d && dayKeyLe d p.endKey)).map
      (fun p => p.name)

/-- Model of `getPublicHoliday` (source lines 243-255): the holiday whose date equals
the date's `yyyy-MM-dd` key. -/
def getPublicHoliday (d : DayKey) (academicYear : String) : Option String :=
  match configPublicHolidays academicYear with
  | none => none
  | some holidays =>
    (holidays.find? (fun h => h.dateKey == d)).map (fun h => h.name)

/-- A rendered day cell, restricted to the fields the background-color
selection reads: the day number (`none` for a blank padding cell) and the
two holiday lookups `formatDayCell` stores (source lines 1218-1262; the
display text, events and `isToday` flag are not modelled here). -/
structure DayCell where
  dayNumber : Option Nat
  schoolHoliday : Option String
  publicHoliday : Option String
deriving DecidableEq, Repr

/-- The holiday decoration of `formatDayCell` (source lines 1214-1263):
the cell's date is `new Date(year, month, dayNumber)` and both lookups use
its `yyyy-MM-dd` key (`month` 0-indexed, hence `month + 1`). -/
def formatDayCell (dayNumber : Nat) (year month : Nat) (academicYear : String) : DayCell :=
  ⟨some dayNumber,
   getSchoolHoliday ⟨year, month + 1, dayNumber⟩ academicYear,
   getPublicHoliday ⟨year, month + 1, dayNumber⟩ academicYear⟩

/-- Model of `CONFIG.colors` (source lines 122-127). -/
def saturdayColor : String := "#E3F2FD"

def sundayColor : String := "#FFE0B2"

def schoolHolidayColor : String := "#E1BEE7"

def publicHolidayColor : String := "#FFCDD2"

/-- The background-color selection of `applyFormatting` (source lines
1562-1578): `colIndex` is the cell's column, 0 = Monday .. 6 = Sunday;
priority is public holiday, then school holiday on weekdays only, then
Saturday, then Sunday, else white. -/
def backgroundColor (cell : DayCell) (colIndex : Nat) : String :=
  let isSaturday := colIndex == 5
  let isSunday := colIndex == 6
  if cell.publicHoliday.isSome then publicHolidayColor
  else if cell.schoolHoliday.isSome && !isSaturday && !isSunday then schoolHolidayColor
  else if isSaturday then saturdayColor
  else if isSunday then sundayColor
  else "#FFFFFF"

/-- The dominant-overlay selection as the claim words it (spec priority:
staff absence > public holiday > school break > weekend > none), written
only to be compared against the source's `backgroundColor`.  The source has
no staff-absence overlay at all, so that tier is represented by an explicit
input that the source could never supply. -/
def claimedPriorityColor (staffAbsence : Option String) (cell : DayCell)
    (colIndex : Nat) : String :=
  if staffAbsence.isSome then "staff-absence"
  else if cell.publicHoliday.isSome then publicHolidayColor
  else if cell.schoolHoliday.isSome then schoolHolidayColor
  else if colIndex == 5 then saturdayColor
  else if colIndex == 6 then sundayColor
  else "#FFFFFF"

/-- C5 counterexample: 2025-10-25 falls inside the school break
"Vacances d'octobre" (2025-10-24 .. 2025-10-31), is no public holiday, and
is a Saturday (grid column 5).  Under the claimed fixed priority
(staff absence > public holiday > school break > weekend) the cell would get
the school-break background; the source gives it the Saturday background: a
school break does NOT dominate the weekend styling in the code, and no
staff-absence overlay exists at all. -/
theorem claim_C5_counterexample :
    (formatDayCell 25 2025 9 "2025-2026").publicHoliday = none ∧
    (formatDayCell 25 2025 9 "2025-2026").schoolHoliday = some "Vacances d\x27octobre" ∧
    backgroundColor (formatDayCell 25 2025 9 "2025-2026") 5 = saturdayColor ∧
    claimedPriorityColor none (formatDayCell 25 2025 9 "2025-2026") 5 = schoolHolidayColor ∧
    saturdayColor ≠ schoolHolidayColor := by
  refine ⟨?_, ?_, ?_, ?_, ?_⟩ <;> decide

/-- C5 (amended): the dominant background of a rendered day cell follows the
priority public holiday > school break on weekdays > Saturday > Sunday >
none (there is no staff-absence overlay); in particular a date that is both
a public holiday and a Saturday (2026-04-04, "Après Vendredi saint") gets
the public-holiday background, not the weekend background. -/
theorem claim_C5_priority (year month day : Nat) (ay : String) (c : Nat) :
    ((formatDayCell day year month ay).publicHoliday.isSome = true →
      backgroundColor (formatDayCell day year month ay) c = publicHolidayColor) ∧
    ((formatDayCell day year month ay).publicHoliday = none →
      (formatDayCell day year month ay).schoolHoliday.isSome = true → c ≠ 5 → c ≠ 6 →
      backgroundColor (formatDayCell day year month ay) c = schoolHolidayColor) ∧
    ((formatDayCell day year month ay).publicHoliday = none →
      backgroundColor (formatDayCell day year month ay) 5 = saturdayColor) ∧
    ((formatDayCell day year month ay).publicHoliday = none →
      backgroundColor (formatDayCell day year month ay) 6 = sundayColor) ∧
    ((formatDayCell day year month ay).publicHoliday = none →
      (formatDayCell day year month ay).schoolHoliday = none → c ≠ 5 → c ≠ 6 →
      backgroundColor (formatDayCell day year month ay) c = "#FFFFFF") ∧
    backgroundColor (formatDayCell 4 2026 3 "2025-2026") 5 = publicHolidayColor := by
  refine ⟨?_, ?_, ?_, ?_, ?_, by decide⟩
  · intro hph
    simp [backgroundColor, hph]
  · intro hph hsh hc5 hc6
    have h5 : (c == 5) = false := beq_eq_false_iff_ne.mpr hc5
    have h6 : (c == 6) = false := beq_eq_false_iff_ne.mpr hc6
    simp [backgroundColor, hph, hsh, h5, h6]
  · intro hph
    simp [backgroundColor, hph]
  · intro hph
    simp [backgroundColor, hph]
  · intro hph hsh hc5 hc6
    have h5 : (c == 5) = false := beq_eq_false_iff_ne.mpr hc5
    have h6 : (c == 6) = false := beq_eq_false_iff_ne.mpr hc6
    simp [backgroundColor, hph, hsh, h5, h6]

/-- Witness for C5 (amended) at the concrete public-holiday Saturday
2026-04-04. -/
theorem claim_C5_priority_witness :
    backgroundColor (formatDayCell 4 2026 3 "2025-2026") 5 = publicHolidayColor :=
  (claim_C5_priority 2026 3 4 "2025-2026" 5).1 (by decide)

/-- A source-sheet cell as read by `getValues()`: empty, a text cell, or a
date-typed cell.  (Numeric serial-date cells, which the source also handles,
are not exercised by any checked property and are omitted.) -/
inductive CellValue where
  | blank
  | str (s : String)
  | dateVal (d : JSDate)
deriving DecidableEq, Repr

/-- ASCII whitespace test modelling the characters `String.prototype.trim`
strips in the inputs at hand. -/
def isSpaceCh (c : Char) : Bool := c = ' ' || c = '\t' || c = '\n' || c = '\r'

/-- Model of `String.prototype.trim`. -/
def jsTrim (s : String) : String :=
  String.mk (((s.data.dropWhile isSpaceCh).reverse.dropWhile isSpaceCh).reverse)

/-- ASCII lowercasing of one character (`String.prototype.toLowerCase` on
the ASCII-plus-accents inputs at hand; accented letters are left as is,
matching the source data which is already lowercase beyond ASCII). -/
def asciiLowerCh (c : Char) : Char :=
  if 65 ≤ c.toNat ∧ c.toNat ≤ 90 then Char.ofNat (c.toNat + 32) else c

/-- Model of `String.prototype.toLowerCase`. -/
def jsToLower (s : String) : String := String.mk (s.data.map asciiLowerCh)

/-- Model of `hasTimeComponent` (source lines 664-674), `Date` branch: nonzero hours,
minutes or seconds. -/
def hasTimeComponent (d : JSDate) : Bool :=
  !(d.hour == 0) || !(d.minute == 0) || !(d.second == 0)

/-- The `{ date, hasTime }` result of `parseDateTimeValue`. -/
structure ParsedDT where
  date : JSDate
  hasTime : Bool
deriving DecidableEq, Repr

/-- Model of `parseDateTimeValue` (source lines 681-701).  `parseStr` is the oracle
for the platform's `new Date(string)` parser: `none` models an Invalid Date
(`isNaN(date.getTime())`).  A falsy cell (`blank` or empty string) yields
`null`; a `Date` cell keeps its time component flag; a parsed string gets
`hasTime = false` (the source never sets it in that branch). -/
def parseDateTimeValue (parseStr : String → Option JSDate) : CellValue → Option ParsedDT
  | .blank => none
  | .dateVal d => some ⟨d, hasTimeComponent d⟩
  | .str s => if s = "" then none else (parseStr s).map (fun d => ⟨d, false⟩)

/-- JS truthiness of a cell value (`row[endCol]` guard, source line 780). -/
def cellTruthy : CellValue → Bool
  | .blank => false
  | .str s => !(s == "")
  | .dateVal _ => true

/-- Model of `String(value)` for a flag cell (a date-typed cell in a flag column is
not modelled). -/
def cellRawString : CellValue → String
  | .blank => ""
  | .str s => s
  | .dateVal _ => ""

/-- Model of `toBooleanFilter` (source lines 178-182): falsy cells are `false`,
otherwise the lowercased trimmed text must be one of the yes-markers.  A
`Date` cell is truthy but its string form is never a yes-marker. -/
def toBooleanFilter : CellValue → Bool
  | .blank => false
  | .str s =>
    if s = "" then false
    else
      let t := jsTrim (jsToLower s)
      t == "oui" || t == "yes" || t == "true" || t == "1" || t == "x"
  | .dateVal _ => false

/-- One record appended to the `Erreurs` sheet by `logError` (source lines
329-338); the free-text details column (locale-rendered) is not modelled. -/
structure ErrorLogEntry where
  typ : String
  department : String
  rowNum : Nat
  description : String
deriving DecidableEq, Repr

/-- One source data row as handed to the normalizer loop: the raw service
and event text (after `String(... || '')`), and the start/end/flag cells. -/
structure RawRow where
  serviceCell : String
  eventCell : String
  startCell : CellValue
  endCell : CellValue
  surSiteCell : CellValue
  surCalCell : CellValue
deriving DecidableEq, Repr

/-- The body of the per-row loop of `getAllEvents` (source lines 752-828):
returns the event produced for the row (if any) and the `DONNÉES` errors
logged for it, in order.  `useLegacy`/`endColExists` etc. describe the
sheet's detected columns. -/
def processRow (parseStr : String → Option JSDate) (useLegacy : Bool)
    (endColExists surSiteColExists surCalColExists : Bool) (sheetName : String)
    (sheetId rowNum : Nat) (row : RawRow) : Option Event × List ErrorLogEntry :=
  let service := jsTrim row.serviceCell
  let eventName := jsTrim row.eventCell
  match parseDateTimeValue parseStr row.startCell with
  | none =>
    if eventName != "" then
      (none, [⟨"DONNÉES", sheetName, rowNum, "Date manquante ou invalide"⟩])
    else
      (none, [])
  | some startParsed =>
    let endState : Option ParsedDT × List ErrorLogEntry :=
      if !useLegacy && endColExists && cellTruthy row.endCell then
        match parseDateTimeValue parseStr row.endCell with
        | some p => (some p, [])
        | none => (none, [⟨"DONNÉES", sheetName, rowNum, "Date de fin invalide"⟩])
      else (none, [])
    let surSiteCCFHK := if surSiteColExists then toBooleanFilter row.surSiteCell else false
    let surCalendrierExcel := if surCalColExists then toBooleanFilter row.surCalCell else false
    let surCalendrierExcelRaw :=
      if surCalColExists then jsToLower (jsTrim (cellRawString row.surCalCell)) else ""
    if eventName == "" then
      (none, endState.2 ++ [⟨"DONNÉES", sheetName, rowNum, "Nom d\x27événement manquant"⟩])
    else
      (some { department := sheetName, date := startParsed.date,
              startDate := startParsed.date,
              endDate := endState.1.map (fun p => p.date),
              hasTime := startParsed.hasTime || (endState.1.map (fun p => p.hasTime)).getD false,
              service := service, event := eventName, sheetId := sheetId, rowIndex := rowNum,
              surSiteCCFHK := surSiteCCFHK, surCalendrierExcel := surCalendrierExcel,
              surCalendrierExcelRaw := surCalendrierExcelRaw },
       endState.2)

/-- C6: the normalizer's per-row contract: (1) a row with a title but an
invalid/missing start date is reported as one `DONNÉES` error and skipped;
(2) a row with a valid date but no title is skipped and a missing-name
`DONNÉES` error is reported; (3) a row with neither is silently skipped with
no error; (4) a row whose end cell is present but unparseable is reported as
a `DONNÉES` error, its end is treated as absent, and its start still
produces an event. -/
theorem claim_C6_row_contract (parseStr : String → Option JSDate)
    (useLegacy endColExists surSiteColExists surCalColExists : Bool)
    (sheetName : String) (sheetId rowNum : Nat) (row : RawRow) :
    (parseDateTimeValue parseStr row.startCell = none → jsTrim row.eventCell ≠ "" →
      processRow parseStr useLegacy endColExists surSiteColExists surCalColExists
          sheetName sheetId rowNum row =
        (none, [⟨"DONNÉES", sheetName, rowNum, "Date manquante ou invalide"⟩])) ∧
    (∀ p, parseDateTimeValue parseStr row.startCell = some p → jsTrim row.eventCell = "" →
      (processRow parseStr useLegacy endColExists surSiteColExists surCalColExists
          sheetName sheetId rowNum row).1 = none ∧
      (⟨"DONNÉES", sheetName, rowNum, "Nom d\x27événement manquant"⟩ : ErrorLogEntry) ∈
        (processRow parseStr useLegacy endColExists surSiteColExists surCalColExists
          sheetName sheetId rowNum row).2) ∧
    (parseDateTimeValue parseStr row.startCell = none → jsTrim row.eventCell = "" →
      processRow parseStr useLegacy endColExists surSiteColExists surCalColExists
          sheetName sheetId rowNum row = (none, [])) ∧
    (∀ p, parseDateTimeValue parseStr row.startCell = some p → jsTrim row.eventCell ≠ "" →
      useLegacy = false → endColExists = true → cellTruthy row.endCell = true →
      parseDateTimeValue parseStr row.endCell = none →
      (processRow parseStr useLegacy endColExists surSiteColExists surCalColExists
          sheetName sheetId rowNum row).2 =
        [⟨"DONNÉES", sheetName, rowNum, "Date de fin invalide"⟩] ∧
      ∃ ev, (processRow parseStr useLegacy endColExists surSiteColExists surCalColExists
          sheetName sheetId rowNum row).1 = some ev ∧
        ev.endDate = none ∧ ev.startDate = p.date ∧ ev.event = jsTrim row.eventCell) := by
  refine ⟨?_, ?_, ?_, ?_⟩
  · intro h1 h2
    have hb : (jsTrim row.eventCell != "") = true := bne_iff_ne.mpr h2
    simp [processRow, h1, hb]
  · intro p hp he
    simp [processRow, hp, he]
  · intro h1 h2
    simp [processRow, h1, h2]
  · intro p hp he hleg hend htruthy hparse
    have hb : (jsTrim row.eventCell != "") = true := bne_iff_ne.mpr he
    subst hleg
    subst hend
    have hres : processRow parseStr false true surSiteColExists surCalColExists
        sheetName sheetId rowNum row =
      (some { department := sheetName, date := p.date, startDate := p.date,
              endDate := none, hasTime := p.hasTime,
              service := jsTrim row.serviceCell, event := jsTrim row.eventCell,
              sheetId := sheetId, rowIndex := rowNum,
              surSiteCCFHK := if surSiteColExists then toBooleanFilter row.surSiteCell else false,
              surCalendrierExcel :=
                if surCalColExists then toBooleanFilter row.surCalCell else false,
              surCalendrierExcelRaw :=
                if surCalColExists then jsToLower (jsTrim (cellRawString row.surCalCell))
                else "" },
       [⟨"DONNÉES", sheetName, rowNum, "Date de fin invalide"⟩]) := by
      simp [processRow, hp, hb, htruthy, hparse, he]
    constructor
    · rw [hres]
    · exact ⟨_, by rw [hres], rfl, rfl, rfl⟩

/-- Witness for C6: the spec's concrete scenario — a row titled
"Spring Concert" with invalid date text "TBD" yields no event and one
`DONNÉES` error for that row. -/
theorem claim_C6_row_contract_witness :
    processRow (fun _ => none) false true true true "Culture" 3 7
      ⟨"Musique", "Spring Concert", CellValue.str "TBD", CellValue.blank,
        CellValue.blank, CellValue.blank⟩ =
      (none, [⟨"DONNÉES", "Culture", 7, "Date manquante ou invalide"⟩]) :=
  (claim_C6_row_contract (fun _ => none) false true true true "Culture" 3 7
      ⟨"Musique", "Spring Concert", CellValue.str "TBD", CellValue.blank,
        CellValue.blank, CellValue.blank⟩).1 (by decide) (by decide)

/-- Model of `CONFIG.monthNames` (source lines 32-35), academic order August..July. -/
def configMonthNames : List String :=
  ["août", "septembre", "octobre", "novembre", "décembre",
   "janvier", "février", "mars", "avril", "mai", "juin", "juillet"]

/-- The filter settings read by `readFilters` (source lines 847-859). -/
structure Filters where
  year : String
  timeRange : String
  department : String
  surCalendrierExcel : String
  surSiteCCFHK : String
  search : String
deriving Repr

/-- Decimal value of a digit character. -/
def digitVal (c : Char) : Nat := c.toNat - 48

/-- Tries to match `\d{4}-\d{4}` at the head of the character list,
returning the two parsed 4-digit numbers. -/
def matchYearsAt : List Char → Option (Nat × Nat)
  | a :: b :: c :: d :: e :: f :: g :: h :: i :: _ =>
    if isDigitCh a && isDigitCh b && isDigitCh c && isDigitCh d && e == '-' &&
        isDigitCh f && isDigitCh g && isDigitCh h && isDigitCh i then
      some (((digitVal a * 10 + digitVal b) * 10 + digitVal c) * 10 + digitVal d,
            ((digitVal f * 10 + digitVal g) * 10 + digitVal h) * 10 + digitVal i)
    else none
  | _ => none

/-- Model of `yearStr.match(/(\d{4})-(\d{4})/)` with `parseInt` on both groups
(source line 921/932): the leftmost occurrence of four digits, a dash, four
digits. -/
def scanYearPattern : List Char → Option (Nat × Nat)
  | [] => none
  | c :: rest =>
    match matchYearsAt (c :: rest) with
    | some r => some r
    | none => scanYearPattern rest

/-- Model of `parseAcademicYear` (source lines 920-937): a matched token maps to
[Aug 1 of the first group's year, Jul 31 23:59:59 of that year + 1]; a
non-matching token falls back to the August-anchored window containing
`now` (month index 7 = August). -/
def parseAcademicYear (now : JSDate) (yearStr : String) : JSDate × JSDate :=
  match scanYearPattern yearStr.data with
  | none =>
    let year := if now.month ≥ 7 then now.year else now.year - 1
    (⟨year, 7, 1, 0, 0, 0⟩, ⟨year + 1, 6, 31, 23, 59, 59⟩)
  | some (startYear, _) =>
    (⟨startYear, 7, 1, 0, 0, 0⟩, ⟨startYear + 1, 6, 31, 23, 59, 59⟩)

/-- Whether `big` starts with `sub`. -/
def listStartsWith : List Char → List Char → Bool
  | _, [] => true
  | [], _ :: _ => false
  | c :: cs, d :: ds => c == d && listStartsWith cs ds

/-- Whether `sub` occurs contiguously in `big`. -/
def listHasSub : List Char → List Char → Bool
  | [], sub => sub.isEmpty
  | c :: cs, sub => listStartsWith (c :: cs) sub || listHasSub cs sub

/-- Model of `String.prototype.includes`. -/
def jsIncludes (s sub : String) : Bool := listHasSub s.data sub.data

/-- Model of `passesTimeRangeFilter` (source lines 946-980): `'Tout'` passes all;
`'Actuel + À venir'` requires the event to start on or after the first day
of the current calendar month; a month name additionally pins the calendar
month and requires the start inside the academic-year window; any other
token passes. -/
def passesTimeRangeFilter (now : JSDate) (event : Event) (timeRange : String)
    (yearRange : JSDate × JSDate) : Bool :=
  if timeRange == "Tout" then true
  else if timeRange == "Actuel + À venir" then
    (⟨now.year, now.month, 1, 0, 0, 0⟩ : JSDate).jsLe event.date
  else
    match configMonthNames.findIdx? (fun m => m == jsToLower timeRange) with
    | some monthIndex =>
      let calendarMonth := (monthIndex + 7) % 12
      if event.date.month != calendarMonth then false
      else yearRange.1.jsLe event.date && event.date.jsLe yearRange.2
    | none => true

/-- Model of `getFilteredEvents` (source lines 867-913): conjunction of the academic
year window, the time-range filter, the department filter, the free-text
search and the two tri-state flag filters. -/
def getFilteredEvents (now : JSDate) (allEvents : List Event) (filters : Filters) :
    List Event :=
  let yearRange := parseAcademicYear now filters.year
  allEvents.filter (fun event =>
    if event.date.jsLt yearRange.1 || yearRange.2.jsLt event.date then false
    else if !(passesTimeRangeFilter now event filters.timeRange yearRange) then false
    else if filters.department != "Tous" && event.department != filters.department then false
    else if filters.search != "" &&
        !(jsIncludes (jsToLower (event.service ++ " " ++ event.event)) filters.search) then
      false
    else if (filters.surSiteCCFHK != "" && filters.surSiteCCFHK != "Tous") &&
        event.surSiteCCFHK != (filters.surSiteCCFHK == "Oui") then false
    else if (filters.surCalendrierExcel != "" && filters.surCalendrierExcel != "Tous") &&
        event.surCalendrierExcel != (filters.surCalendrierExcel == "Oui") then false
    else true)

theorem window_not_lt (s e x : JSDate) :
    (!(x.jsLt s || e.jsLt x)) = (s.jsLe x && x.jsLe e) := by
  unfold JSDate.jsLt JSDate.jsLe
  by_cases h1 : x.code < s.code
  · simp [h1]
  · by_cases h2 : e.code < x.code
    · simp [h1, h2]
    · simp [h1, h2]
      omega

/-- C7: with every other filter set to its pass-all value, a year token
containing `YYYY-YYYY` (consecutive years) keeps exactly the events whose
start lies in [Aug 1 00:00 of the first year, Jul 31 23:59:59 of the second
year]; for "2025-2026" an event at 2025-08-01 00:00 is kept and one at
2026-08-01 00:00 is rejected; and a token without the pattern falls back to
the August-anchored window containing the current date. -/
theorem claim_C7_academic_year_window (now : JSDate) (allEvents : List Event)
    (tok : String) (y1 y2 : Nat) :
    (scanYearPattern tok.data = some (y1, y2) → y2 = y1 + 1 →
      getFilteredEvents now allEvents ⟨tok, "Tout", "Tous", "Tous", "Tous", ""⟩ =
        allEvents.filter (fun e =>
          (⟨y1, 7, 1, 0, 0, 0⟩ : JSDate).jsLe e.date &&
            e.date.jsLe ⟨y2, 6, 31, 23, 59, 59⟩)) ∧
    getFilteredEvents now [sampleEvent,
        { sampleEvent with date := ⟨2026, 7, 1, 0, 0, 0⟩, startDate := ⟨2026, 7, 1, 0, 0, 0⟩ }]
        ⟨"2025-2026", "Tout", "Tous", "Tous", "Tous", ""⟩ = [sampleEvent] ∧
    (scanYearPattern tok.data = none → 1 ≤ now.year → 1 ≤ now.day → now.month ≤ 11 →
      now.day ≤ 31 → now.hour ≤ 23 → now.minute ≤ 59 → now.second ≤ 59 →
      (parseAcademicYear now tok).1.jsLe now = true ∧
      now.jsLe (parseAcademicYear now tok).2 = true ∧
      (parseAcademicYear now tok).1.month = 7 ∧ (parseAcademicYear now tok).1.day = 1 ∧
      (parseAcademicYear now tok).2.month = 6 ∧ (parseAcademicYear now tok).2.day = 31) := by
  have key : ∀ (evs : List Event) (tok' : String) (y1' : Nat),
      scanYearPattern tok'.data = some (y1', y1' + 1) →
      getFilteredEvents now evs ⟨tok', "Tout", "Tous", "Tous", "Tous", ""⟩ =
        evs.filter (fun e =>
          (⟨y1', 7, 1, 0, 0, 0⟩ : JSDate).jsLe e.date &&
            e.date.jsLe ⟨y1' + 1, 6, 31, 23, 59, 59⟩) := by
    intro evs tok' y1' hscan
    have h1 : parseAcademicYear now tok' =
        (⟨y1', 7, 1, 0, 0, 0⟩, ⟨y1' + 1, 6, 31, 23, 59, 59⟩) := by
      unfold parseAcademicYear
      rw [hscan]
    simp only [getFilteredEvents, h1]
    refine List.filter_congr ?_
    intro e _
    rw [← window_not_lt ⟨y1', 7, 1, 0, 0, 0⟩ ⟨y1' + 1, 6, 31, 23, 59, 59⟩ e.date]
    cases h : (e.date.jsLt ⟨y1', 7, 1, 0, 0, 0⟩ ||
        JSDate.jsLt ⟨y1' + 1, 6, 31, 23, 59, 59⟩ e.date) <;>
      simp [h, passesTimeRangeFilter]
  refine ⟨?_, ?_, ?_⟩
  · intro hscan hy2
    subst hy2
    exact key allEvents tok y1 hscan
  · rw [key _ "2025-2026" 2025 (by decide)]
    decide
  · intro hscan hy hd1 hm hd2 hh hmi hs
    have h1 : parseAcademicYear now tok =
        (⟨(if now.month ≥ 7 then now.year else now.year - 1), 7, 1, 0, 0, 0⟩,
         ⟨(if now.month ≥ 7 then now.year else now.year - 1) + 1, 6, 31, 23, 59, 59⟩) := by
      unfold parseAcademicYear
      rw [hscan]
    rw [h1]
    refine ⟨?_, ?_, rfl, rfl, rfl, rfl⟩
    · by_cases h7 : now.month ≥ 7
      · rw [if_pos h7]
        simp only [JSDate.jsLe, JSDate.code, decide_eq_true_eq]
        omega
      · rw [if_neg h7]
        simp only [JSDate.jsLe, JSDate.code, decide_eq_true_eq]
        omega
    · by_cases h7 : now.month ≥ 7
      · rw [if_pos h7]
        simp only [JSDate.jsLe, JSDate.code, decide_eq_true_eq]
        omega
      · rw [if_neg h7]
        simp only [JSDate.jsLe, JSDate.code, decide_eq_true_eq]
        omega

/-- Witness for C7 at a concrete token and date. -/
theorem claim_C7_academic_year_window_witness :
    getFilteredEvents ⟨2025, 9, 15, 12, 0, 0⟩ [sampleEvent]
        ⟨"2025-2026", "Tout", "Tous", "Tous", "Tous", ""⟩ =
      [sampleEvent].filter (fun e =>
        (⟨2025, 7, 1, 0, 0, 0⟩ : JSDate).jsLe e.date &&
          e.date.jsLe ⟨2026, 6, 31, 23, 59, 59⟩) :=
  (claim_C7_academic_year_window ⟨2025, 9, 15, 12, 0, 0⟩ [sampleEvent]
      "2025-2026" 2025 2026).1 (by decide) rfl

/-- Gregorian leap-year rule, as implemented by the platform's `Date`. -/
def isLeapYear (year : Nat) : Bool :=
  (year % 4 == 0 && year % 100 != 0) || year % 400 == 0

/-- Model of `new Date(year, month + 1, 0).getDate()`: the number of days of the
0-indexed `month` (source line 1148/1152). -/
def daysInMonth (year month : Nat) : Nat :=
  if month = 1 then (if isLeapYear year then 29 else 28)
  else if month = 3 || month = 5 || month = 8 || month = 10 then 30
  else 31

/-- Model of `new Date(year, month, 1).getDay()` (0 = Sunday), via Sakamoto's
congruence (source line 1150). -/
def firstJsDay (year month : Nat) : Nat :=
  let m := month + 1
  let y := if m < 3 then year - 1 else year
  let t := [0, 3, 2, 5, 0, 3, 5, 1, 4, 6, 2, 4]
  (y + y / 4 - y / 100 + y / 400 + t.getD (m - 1) 0 + 1) % 7

theorem firstJsDay_oct2025 : firstJsDay 2025 9 = 3 := by decide

theorem firstJsDay_apr2026 : firstJsDay 2026 3 = 3 := by decide

/-- Monday-first conversion (source line 1151): Sunday (0) becomes 6,
otherwise `getDay() - 1`. -/
def startingDayOfWeek (year month : Nat) : Nat :=
  let jsDayOfWeek := firstJsDay year month
  if jsDayOfWeek = 0 then 6 else jsDayOfWeek - 1

/-- The inner `for dayOfWeek in 0..6` loop of `generateMonthGrid` (source
lines 1166-1182): returns the cells of one week row and the updated
`currentDay`.  A placed cell is `formatDayCell` for the current day; a
padding cell is the blank record (`dayNumber: null`, no holidays). -/
def buildWeekCells (year month : Nat) (ay : String) (daysInM startingDow weekIdx : Nat) :
    List Nat → Nat → (List DayCell × Nat)
  | [], currentDay => ([], currentDay)
  | dayOfWeek :: rest, currentDay =>
    if ((weekIdx == 0 && decide (startingDow ≤ dayOfWeek)) ||
        (decide (0 < weekIdx) && decide (currentDay ≤ daysInM))) &&
        decide (currentDay ≤ daysInM) then
      let p := buildWeekCells year month ay daysInM startingDow weekIdx rest (currentDay + 1)
      (formatDayCell currentDay year month ay :: p.1, p.2)
    else
      let p := buildWeekCells year month ay daysInM startingDow weekIdx rest currentDay
      (⟨none, none, none⟩ :: p.1, p.2)

/-- The outer `for week in 0..5` loop of `generateMonthGrid` (source lines
1163-1188): pushes each week row, stopping early once every day is placed
(`if (currentDay > daysInMonth) break`). -/
def gridLoop (year month : Nat) (ay : String) (daysInM startingDow : Nat) :
    Nat → Nat → Nat → List (List DayCell)
  | 0, _, _ => []
  | weeksLeft + 1, weekIdx, currentDay =>
    let p := buildWeekCells year month ay daysInM startingDow weekIdx
      [0, 1, 2, 3, 4, 5, 6] currentDay
    p.1 :: (if daysInM < p.2 then []
      else gridLoop year month ay daysInM startingDow weeksLeft (weekIdx + 1) p.2)

/-- Model of `generateMonthGrid` (source lines 1146-1191): at most 6 week rows,
Monday-first; `ay` is the academic year `formatDayCell` decorates cells
with (`getCurrentAcademicYear()` in the source). -/
def generateMonthGrid (year month : Nat) (ay : String) : List (List DayCell) :=
  gridLoop year month ay (daysInMonth year month) (startingDayOfWeek year month) 6 0 1

/-- Day-number skeleton of `buildWeekCells` (placed day cells as
`some day`, padding as `none`), used to state and decide the grid layout. -/
def buildWeekNums (daysInM startingDow weekIdx : Nat) :
    List Nat → Nat → (List (Option Nat) × Nat)
  | [], currentDay => ([], currentDay)
  | dayOfWeek :: rest, currentDay =>
    if ((weekIdx == 0 && decide (startingDow ≤ dayOfWeek)) ||
        (decide (0 < weekIdx) && decide (currentDay ≤ daysInM))) &&
        decide (currentDay ≤ daysInM) then
      let p := buildWeekNums daysInM startingDow weekIdx rest (currentDay + 1)
      (some currentDay :: p.1, p.2)
    else
      let p := buildWeekNums daysInM startingDow weekIdx rest currentDay
      (none :: p.1, p.2)

/-- Day-number skeleton of `gridLoop`. -/
def gridNums (daysInM startingDow : Nat) : Nat → Nat → Nat → List (List (Option Nat))
  | 0, _, _ => []
  | weeksLeft + 1, weekIdx, currentDay =>
    let p := buildWeekNums daysInM startingDow weekIdx [0, 1, 2, 3, 4, 5, 6] currentDay
    p.1 :: (if daysInM < p.2 then []
      else gridNums daysInM startingDow weeksLeft (weekIdx + 1) p.2)

theorem buildWeekCells_proj (year month : Nat) (ay : String) (daysInM startingDow weekIdx : Nat) :
    ∀ (l : List Nat) (c : Nat),
      ((buildWeekCells year month ay daysInM startingDow weekIdx l c).1.map
          (fun cell => cell.dayNumber),
        (buildWeekCells year month ay daysInM startingDow weekIdx l c).2) =
      buildWeekNums daysInM startingDow weekIdx l c := by
  intro l
  induction l with
  | nil => intro c; rfl
  | cons d rest ih =>
    intro c
    simp only [buildWeekCells, buildWeekNums]
    by_cases hc : (((weekIdx == 0 && decide (startingDow ≤ d)) ||
        (decide (0 < weekIdx) && decide (c ≤ daysInM))) && decide (c ≤ daysInM)) = true
    · rw [if_pos hc, if_pos hc]
      simp only [List.map_cons, formatDayCell]
      rw [← ih (c + 1)]
    · rw [if_neg hc, if_neg hc]
      simp only [List.map_cons]
      rw [← ih c]

theorem gridLoop_proj (year month : Nat) (ay : String) (daysInM startingDow : Nat) :
    ∀ (weeksLeft weekIdx currentDay : Nat),
      (gridLoop year month ay daysInM startingDow weeksLeft weekIdx currentDay).map
        (List.map (fun cell => cell.dayNumber)) =
      gridNums daysInM startingDow weeksLeft weekIdx currentDay := by
  intro weeksLeft
  induction weeksLeft with
  | zero => intro _ _; rfl
  | succ wl ih =>
    intro weekIdx currentDay
    have hp := buildWeekCells_proj year month ay daysInM startingDow weekIdx
      [0, 1, 2, 3, 4, 5, 6] currentDay
    simp only [gridLoop, gridNums, ← hp]
    by_cases hcond : daysInM <
        (buildWeekCells year month ay daysInM startingDow weekIdx
          [0, 1, 2, 3, 4, 5, 6] currentDay).2
    · simp [hcond]
    · simp [hcond, ih]

theorem gridNums_spec : ∀ s, s < 7 → ∀ k, k < 4 →
    (gridNums (28 + k) s 6 0 1).length ≤ 6 ∧
    (∀ r ∈ gridNums (28 + k) s 6 0 1, r.length = 7) ∧
    s + (28 + k) ≤ 7 * (gridNums (28 + k) s 6 0 1).length ∧
    7 * (gridNums (28 + k) s 6 0 1).length < s + (28 + k) + 7 ∧
    (gridNums (28 + k) s 6 0 1).flatten =
      List.replicate s none ++ (List.range' 1 (28 + k)).map some ++
        List.replicate (7 * (gridNums (28 + k) s 6 0 1).length - s - (28 + k)) none := by
  decide

theorem startingDayOfWeek_lt (year month : Nat) : startingDayOfWeek year month < 7 := by
  have hj : firstJsDay year month < 7 := by
    unfold firstJsDay
    exact Nat.mod_lt _ (by norm_num)
  show (if firstJsDay year month = 0 then 6 else firstJsDay year month - 1) < 7
  split <;> omega

theorem daysInMonth_bounds (year month : Nat) :
    28 ≤ daysInMonth year month ∧ daysInMonth year month ≤ 31 := by
  unfold daysInMonth
  split
  · split <;> omega
  · split <;> omega

/-- C8: for every (year, month), `generateMonthGrid` produces at most 6 week
rows of 7 cells each whose day numbers, read in order, are exactly
`startingDayOfWeek` leading blanks, the days 1..lastDay each exactly once in
order, then only trailing blanks; the leading-blank count is below 7 and the
trailing-blank count is also below 7 (`7 * rows < blanks + days + 7`), so
blanks occur only before day 1 in the first row and after the last day in
the last row, and generation stops once all days are placed (no fully blank
trailing row can exist). -/
theorem claim_C8_grid_layout (year month : Nat) (ay : String) :
    (generateMonthGrid year month ay).length ≤ 6 ∧
    (∀ r ∈ generateMonthGrid year month ay, r.length = 7) ∧
    startingDayOfWeek year month < 7 ∧
    startingDayOfWeek year month + daysInMonth year month ≤
      7 * (generateMonthGrid year month ay).length ∧
    7 * (generateMonthGrid year month ay).length -
      startingDayOfWeek year month - daysInMonth year month < 7 ∧
    (generateMonthGrid year month ay).flatten.map (fun cell => cell.dayNumber) =
      List.replicate (startingDayOfWeek year month) none ++
        (List.range' 1 (daysInMonth year month)).map some ++
        List.replicate (7 * (generateMonthGrid year month ay).length -
          startingDayOfWeek year month - daysInMonth year month) none := by
  have hs := startingDayOfWeek_lt year month
  have hb := daysInMonth_bounds year month
  have hspec := gridNums_spec (startingDayOfWeek year month) hs
    (daysInMonth year month - 28) (by omega)
  have hk : 28 + (daysInMonth year month - 28) = daysInMonth year month := by omega
  rw [hk] at hspec
  have hproj := gridLoop_proj year month ay (daysInMonth year month)
    (startingDayOfWeek year month) 6 0 1
  unfold generateMonthGrid
  have hlen : (gridLoop year month ay (daysInMonth year month)
      (startingDayOfWeek year month) 6 0 1).length =
      (gridNums (daysInMonth year month) (startingDayOfWeek year month) 6 0 1).length := by
    rw [← hproj, List.length_map]
  refine ⟨?_, ?_, hs, ?_, ?_, ?_⟩
  · rw [hlen]
    exact hspec.1
  · intro r hr
    have hmem : r.map (fun cell => cell.dayNumber) ∈
        gridNums (daysInMonth year month) (startingDayOfWeek year month) 6 0 1 := by
      rw [← hproj]
      exact List.mem_map_of_mem _ hr
    have := hspec.2.1 _ hmem
    rwa [List.length_map] at this
  · rw [hlen]
    exact hspec.2.2.1
  · rw [hlen]
    have := hspec.2.2.2.1
    omega
  · rw [List.map_flatten, hproj, hlen, hspec.2.2.2.2]

/-- Witness for C8 at October 2025 (first day Wednesday, 31 days): 5 week
rows, and fewer than 7 trailing blanks. -/
theorem claim_C8_grid_layout_witness :
    (generateMonthGrid 2025 9 "2025-2026").length ≤ 6 ∧
    startingDayOfWeek 2025 9 < 7 ∧
    7 * (generateMonthGrid 2025 9 "2025-2026").length -
      startingDayOfWeek 2025 9 - daysInMonth 2025 9 < 7 :=
  ⟨(claim_C8_grid_layout 2025 9 "2025-2026").1,
   (claim_C8_grid_layout 2025 9 "2025-2026").2.2.1,
   (claim_C8_grid_layout 2025 9 "2025-2026").2.2.2.2.1⟩
